import Mathlib

/-!
Verification development for the dynamic broad-phase collision management core
and the continuous collision dispatch layer of a 3D collision-detection
library (`include/fcl/broadphase/broadphase_dynamic_AABB_tree.h` and
`include/fcl/continuous_collision.h`).

The C++ code is shallowly embedded: scalars (`Scalar`, instantiated at
`float`/`double`) are modelled as exact rationals `ℚ`, `std::size_t` loop
counters as `ℕ`, transforms as an opaque type parameter `T`, and the external
collaborators (motions, narrow-phase collision, conservative-advancement
tables, per-BV mesh kernels) as function parameters.  Stateful C++ is turned
into explicit state passing; functions that mutate a result object by
reference instead return the updated record.
-/

namespace FCLSpec

/-! ### Enumeration codes

The C++ enums (`CCDSolverType`, `CCDMotionType`, `GJKSolverType`,
`OBJECT_TYPE`, `NODE_TYPE`) live in headers outside the two source files,
so they are modelled as `ℕ` codes (C++ enums are integer-valued; a `switch`
`default:` branch catches every unlisted value).  The particular values are
irrelevant; only distinctness matters. -/

def CCDC_NAIVE : ℕ := 0
def CCDC_CONSERVATIVE_ADVANCEMENT : ℕ := 1
def CCDC_RAY_SHOOTING : ℕ := 2
def CCDC_POLYNOMIAL_SOLVER : ℕ := 3

def CCDM_TRANS : ℕ := 0
def CCDM_LINEAR : ℕ := 1
def CCDM_SCREW : ℕ := 2
def CCDM_SPLINE : ℕ := 3

def GST_LIBCCD : ℕ := 0
def GST_INDEP : ℕ := 1

def OT_UNKNOWN : ℕ := 0
def OT_BVH : ℕ := 1
def OT_GEOM : ℕ := 2
def OT_OCTREE : ℕ := 3

def BV_UNKNOWN : ℕ := 0
def BV_AABB : ℕ := 1
def BV_OBB : ℕ := 2
def BV_RSS : ℕ := 3
def BV_kIOS : ℕ := 4
def BV_OBBRSS : ℕ := 5
def BV_KDOP16 : ℕ := 6
def BV_KDOP18 : ℕ := 7
def BV_KDOP24 : ℕ := 8

/-! ### Continuous-collision request and result

`ContinuousCollisionRequest` / `ContinuousCollisionResult` are declared in
`fcl/collision_data.h` (outside the given sources); only the fields the
dispatch layer reads/writes are modelled.  `T` stands for `Transform3`. -/

structure CCRequest where
  ccd_solver_type : ℕ
  ccd_motion_type : ℕ
  gjk_solver_type : ℕ
  num_max_iterations : ℕ
  toc_err : ℚ
deriving DecidableEq, Repr

structure CCResult (T : Type) where
  is_collide : Bool
  time_of_contact : ℚ
  contact_tf1 : T
  contact_tf2 : T
deriving DecidableEq, Repr

/-- `CollisionGeometry` as seen by the dispatcher: only `getObjectType()` and
`getNodeType()` are consulted. -/
structure CCGeometry where
  objectType : ℕ
  nodeType : ℕ
deriving DecidableEq, Repr

/-! ### `continuousCollideNaive` (continuous_collision.h, lines 119-155) -/

/-- `n_iter = std::min(request.num_max_iterations, (std::size_t)ceil(1 / request.toc_err))`. -/
def nIter (num_max_iterations : ℕ) (toc_err : ℚ) : ℕ :=
  min num_max_iterations (Int.toNat ⌈1 / toc_err⌉)

/-- The sample time of iteration `i`: `Scalar t = i / (Scalar)(n_iter - 1);`.
The subtraction `n_iter - 1` is `std::size_t` subtraction, here `ℕ`
subtraction; the division is `Scalar` division (total in `ℚ`, with the `ℚ`
convention `x / 0 = 0` standing in for the C++ `0.0 / 0.0` when
`n_iter = 1`; see the claim-C10 theorem). -/
def naiveSample (n_iter i : ℕ) : ℚ :=
  (i : ℚ) / ((n_iter - 1 : ℕ) : ℚ)

/-- The sampling loop `for(std::size_t i = 0; i < n_iter; ++i) { ... }` of
`continuousCollideNaive`, with early return on the first discrete-collision
hit.  `remaining` counts the iterations left (`n_iter - i`); `collideAt`
models the discrete `collide(o1, cur_tf1, o2, cur_tf2, ...)` narrow-phase
call on the two integrated transforms.  Returns the sample time of the first
hit, if any. -/
def naiveLoop {T : Type} (motion1 motion2 : ℚ → T) (collideAt : T → T → Bool)
    (n_iter : ℕ) : ℕ → ℕ → Option ℚ
  | 0, _ => none
  | remaining + 1, i =>
    let t := naiveSample n_iter i
    if collideAt (motion1 t) (motion2 t) then some t
    else naiveLoop motion1 motion2 collideAt n_iter remaining (i + 1)

/-- `continuousCollideNaive` (lines 119-155).  `motion1 t` is the transform
obtained by `motion1->integrate(t); motion1->getCurrentTransform(...)`.
On a hit at sample `t` it returns `t` with
`result.is_collide = true; result.time_of_contact = t` and the two current
transforms recorded; on a miss it sets `is_collide = false`,
`time_of_contact = 1` and returns `1`, leaving the contact transforms of
`result` untouched. -/
def continuousCollideNaive {T : Type} (motion1 motion2 : ℚ → T)
    (collideAt : T → T → Bool) (request : CCRequest) (result : CCResult T) :
    ℚ × CCResult T :=
  let n_iter := nIter request.num_max_iterations request.toc_err
  match naiveLoop motion1 motion2 collideAt n_iter n_iter 0 with
  | some t => (t, ⟨true, t, motion1 t, motion2 t⟩)
  | none => (1, { result with is_collide := false, time_of_contact := 1 })

/-! ### `continuousCollideBVHPolynomial` dispatch (lines 223-273)

The per-BV worker `details::continuousCollideBVHPolynomial<BV>` rewrites the
BVH vertex buffers and runs a mesh traversal; its internals depend on
`BVHModel` (outside the given sources) and are abstracted as `polyKernel`,
keyed by the common `NODE_TYPE` code.  The dispatch switch itself is embedded
verbatim: every case requires `o2` to have the same BV node type, and every
fall-through ends in `return -1` (after a warning) with `result` untouched. -/

def continuousCollideBVHPolynomial {T : Type}
    (polyKernel : ℕ → CCResult T → ℚ × CCResult T)
    (o1 o2 : CCGeometry) (result : CCResult T) : ℚ × CCResult T :=
  if o1.nodeType = BV_AABB then
    (if o2.nodeType = BV_AABB then polyKernel BV_AABB result else (-1, result))
  else if o1.nodeType = BV_OBB then
    (if o2.nodeType = BV_OBB then polyKernel BV_OBB result else (-1, result))
  else if o1.nodeType = BV_RSS then
    (if o2.nodeType = BV_RSS then polyKernel BV_RSS result else (-1, result))
  else if o1.nodeType = BV_kIOS then
    (if o2.nodeType = BV_kIOS then polyKernel BV_kIOS result else (-1, result))
  else if o1.nodeType = BV_OBBRSS then
    (if o2.nodeType = BV_OBBRSS then polyKernel BV_OBBRSS result else (-1, result))
  else if o1.nodeType = BV_KDOP16 then
    (if o2.nodeType = BV_KDOP16 then polyKernel BV_KDOP16 result else (-1, result))
  else if o1.nodeType = BV_KDOP18 then
    (if o2.nodeType = BV_KDOP18 then polyKernel BV_KDOP18 result else (-1, result))
  else if o1.nodeType = BV_KDOP24 then
    (if o2.nodeType = BV_KDOP24 then polyKernel BV_KDOP24 result else (-1, result))
  else (-1, result)

/-- The BV node-type pairs for which the polynomial-solver switch has a
kernel: both sides must carry the same one of the eight supported BV kinds. -/
def polySupportedPair (n1 n2 : ℕ) : Bool :=
  (n1 == n2) && (n1 == BV_AABB || n1 == BV_OBB || n1 == BV_RSS ||
    n1 == BV_kIOS || n1 == BV_OBBRSS || n1 == BV_KDOP16 ||
    n1 == BV_KDOP18 || n1 == BV_KDOP24)

/-! ### `continuousCollideConservativeAdvancement` dispatch (lines 330-354)

The worker `details::continuousCollideConservativeAdvancement` consults a
function-pointer lookup table (built outside the given sources) and is
abstracted as `caSolver`, keyed by the GJK solver code. -/

def continuousCollideConservativeAdvancement {T : Type}
    (caSolver : ℕ → CCResult T → ℚ × CCResult T)
    (request : CCRequest) (result : CCResult T) : ℚ × CCResult T :=
  if request.gjk_solver_type = GST_LIBCCD then caSolver GST_LIBCCD result
  else if request.gjk_solver_type = GST_INDEP then caSolver GST_INDEP result
  else (-1, result)

/-! ### `continuousCollide` dispatcher (lines 356-402)

The `CCDC_RAY_SHOOTING` case has an empty body for the "valid" combination
(both `OT_GEOM` with translation motion) and only warns otherwise; either
way control falls out of the switch to `return -1`.  None of the
unsupported paths writes to `result`. -/

def continuousCollide {T : Type} (motion1 motion2 : ℚ → T)
    (collideAt : T → T → Bool)
    (caSolver : ℕ → CCResult T → ℚ × CCResult T)
    (polyKernel : ℕ → CCResult T → ℚ × CCResult T)
    (o1 o2 : CCGeometry) (request : CCRequest) (result : CCResult T) :
    ℚ × CCResult T :=
  if request.ccd_solver_type = CCDC_NAIVE then
    continuousCollideNaive motion1 motion2 collideAt request result
  else if request.ccd_solver_type = CCDC_CONSERVATIVE_ADVANCEMENT then
    continuousCollideConservativeAdvancement caSolver request result
  else if request.ccd_solver_type = CCDC_RAY_SHOOTING then
    (-1, result)
  else if request.ccd_solver_type = CCDC_POLYNOMIAL_SOLVER then
    (if o1.objectType = OT_BVH ∧ o2.objectType = OT_BVH ∧
        request.ccd_motion_type = CCDM_TRANS then
      continuousCollideBVHPolynomial polyKernel o1 o2 result
    else (-1, result))
  else (-1, result)

/-- The dispatch combinations for which `continuousCollide` reaches one of
its warning / fall-through paths: an unrecognised `ccd_solver_type`, the
reserved ray-shooting solver, a polynomial-solver request whose operands are
not both BVH models under translation motion, or a polynomial-solver request
on a BV node-type pair with no kernel.  Mirrors the branch structure of
lines 356-402 and 223-273. -/
def unsupportedCCDCombo (o1 o2 : CCGeometry) (request : CCRequest) : Prop :=
  (request.ccd_solver_type ≠ CCDC_NAIVE ∧
    request.ccd_solver_type ≠ CCDC_CONSERVATIVE_ADVANCEMENT ∧
    request.ccd_solver_type ≠ CCDC_RAY_SHOOTING ∧
    request.ccd_solver_type ≠ CCDC_POLYNOMIAL_SOLVER) ∨
  request.ccd_solver_type = CCDC_RAY_SHOOTING ∨
  (request.ccd_solver_type = CCDC_POLYNOMIAL_SOLVER ∧
    ¬(o1.objectType = OT_BVH ∧ o2.objectType = OT_BVH ∧
      request.ccd_motion_type = CCDM_TRANS)) ∨
  (request.ccd_solver_type = CCDC_POLYNOMIAL_SOLVER ∧
    o1.objectType = OT_BVH ∧ o2.objectType = OT_BVH ∧
    request.ccd_motion_type = CCDM_TRANS ∧
    polySupportedPair o1.nodeType o2.nodeType = false)

instance (o1 o2 : CCGeometry) (request : CCRequest) :
    Decidable (unsupportedCCDCombo o1 o2 request) := by
  unfold unsupportedCCDCombo; infer_instance

/-! ### AABB primitive

`fcl::AABB` lives in a header outside the two given sources; it is modelled
from the spec (two componentwise-ordered corner vectors; `overlap` tests
nonempty intersection of the closed boxes, `contains` tests inclusion,
`merge` is the bounding union, `size` is the monotone surrogate used for the
descent side-choice — here the squared diagonal — and `translate` shifts a
box by a vector). -/

structure Vec3 where
  x : ℚ
  y : ℚ
  z : ℚ
deriving DecidableEq, Repr

def Vec3.add (a b : Vec3) : Vec3 := ⟨a.x + b.x, a.y + b.y, a.z + b.z⟩

structure AABB where
  lo : Vec3
  hi : Vec3
deriving DecidableEq, Repr

def AABB.overlap (a b : AABB) : Bool :=
  a.lo.x ≤ b.hi.x && b.lo.x ≤ a.hi.x &&
  a.lo.y ≤ b.hi.y && b.lo.y ≤ a.hi.y &&
  a.lo.z ≤ b.hi.z && b.lo.z ≤ a.hi.z

/-- `a.contains b`: the box `b` lies inside `a`. -/
def AABB.containsBox (a b : AABB) : Bool :=
  a.lo.x ≤ b.lo.x && b.hi.x ≤ a.hi.x &&
  a.lo.y ≤ b.lo.y && b.hi.y ≤ a.hi.y &&
  a.lo.z ≤ b.lo.z && b.hi.z ≤ a.hi.z

def AABB.merge (a b : AABB) : AABB :=
  ⟨⟨min a.lo.x b.lo.x, min a.lo.y b.lo.y, min a.lo.z b.lo.z⟩,
   ⟨max a.hi.x b.hi.x, max a.hi.y b.hi.y, max a.hi.z b.hi.z⟩⟩

/-- The surrogate size used by `select` and the descend-larger-side rule:
the squared length of the box diagonal. -/
def AABB.size (a : AABB) : ℚ :=
  (a.hi.x - a.lo.x) ^ 2 + (a.hi.y - a.lo.y) ^ 2 + (a.hi.z - a.lo.z) ^ 2

def AABB.translate (a : AABB) (t : Vec3) : AABB :=
  ⟨a.lo.add t, a.hi.add t⟩

/-! ### Tree nodes

`NodeBase<AABB>`: an internal node owns exactly two children, a leaf carries
the payload handle (`CollisionObject*`, modelled as a `ℕ` handle).  Every
node carries a bounding volume `bv`.  Node identities (`ℕ` ids standing for
node addresses) let the object table refer to leaves. -/

inductive ITree where
  | leaf (id : ℕ) (bv : AABB) (obj : ℕ)
  | node (id : ℕ) (bv : AABB) (left right : ITree)
deriving DecidableEq, Repr

def ITree.bv : ITree → AABB
  | .leaf _ bv _ => bv
  | .node _ bv _ _ => bv

def ITree.isLeaf : ITree → Bool
  | .leaf .. => true
  | .node .. => false

/-- `(payload, bv)` of every leaf, left to right. -/
def ITree.leafRecords : ITree → List (ℕ × AABB)
  | .leaf _ bv obj => [(obj, bv)]
  | .node _ _ l r => l.leafRecords ++ r.leafRecords

def ITree.leafObjs (t : ITree) : List ℕ := t.leafRecords.map Prod.fst

/-- Number of leaves (`HierarchyTree::size()` counts one per registered
object). -/
def ITree.leafCount : ITree → ℕ
  | .leaf .. => 1
  | .node _ _ l r => l.leafCount + r.leafCount

def ITree.height : ITree → ℕ
  | .leaf .. => 0
  | .node _ _ l r => 1 + max l.height r.height

/-- The containment invariant: every internal node's `bv` contains both
children's `bv`s. -/
def ITree.containmentInv : ITree → Bool
  | .leaf .. => true
  | .node _ bv l r =>
    bv.containsBox l.bv && bv.containsBox r.bv &&
    l.containmentInv && r.containmentInv

/-- `min_dist` values: `Scalar` initialised from
`std::numeric_limits<Scalar>::max()`, modelled as `WithTop ℚ` with `⊤` for
the numeric maximum (it dominates every finite distance the callbacks and
the box-distance function produce). -/
abbrev MinDist := WithTop ℚ

/-! ### Traversal kernels (details::dynamic_AABB_tree)

Callbacks are modelled as pure functions; `cdata` side effects are captured
by the invocation trace each kernel returns alongside the C++ return value.
A collision callback returns `true` to stop the walk; a distance callback
additionally updates `min_dist` (passed and returned explicitly instead of
by reference).  `AABB::distance` (Euclidean box distance, outside the given
sources) is a parameter `dist`/`dq` of the distance kernels. -/

/-- Modelled from the spec: `HierarchyTree::select(query_bv, childA, childB)`
returns the child whose `bv` merged with the query box has the smaller
enlargement; ties go to the child whose current `bv` is smaller; final tie
to `0`. -/
def select (query : AABB) (node1 node2 : ITree) : ℕ :=
  let bv1 := node1.bv
  let bv2 := node2.bv
  let e1 := (AABB.merge query bv1).size - bv1.size
  let e2 := (AABB.merge query bv2).size - bv2.size
  if e1 < e2 then 0
  else if e2 < e1 then 1
  else if bv1.size ≤ bv2.size then 0
  else 1

/-- `collisionRecurse(root, query, cdata, callback)`
(broadphase_dynamic_AABB_tree.h, lines 643-663): node × external object
collision.  Returns the stop flag and the payloads on which the callback was
invoked, in order. -/
def collisionRecurseQ (callback : ℕ → Bool) (queryAabb : AABB) :
    ITree → Bool × List ℕ
  | .leaf _ bv obj =>
    if ¬ (bv.overlap queryAabb) then (false, [])
    else (callback obj, [obj])
  | .node _ bv l r =>
    if ¬ (bv.overlap queryAabb) then (false, [])
    else if select queryAabb l r = 0 then
      match collisionRecurseQ callback queryAabb l with
      | (true, tr) => (true, tr)
      | (false, tr) =>
        let (s2, tr2) := collisionRecurseQ callback queryAabb r
        (s2, tr ++ tr2)
    else
      match collisionRecurseQ callback queryAabb r with
      | (true, tr) => (true, tr)
      | (false, tr) =>
        let (s2, tr2) := collisionRecurseQ callback queryAabb l
        (s2, tr ++ tr2)

/-- `distanceRecurse(root, query, cdata, callback, min_dist)` (lines
772-814): node × external object distance.  `dq bv` models
`query->getAABB().distance(bv)`.  At a leaf, the callback is invoked
unconditionally; at an internal node the child with the smaller AABB
distance is visited first and a child is recursed into only while its
distance is `< min_dist` (re-read after the first recursion). -/
def distanceRecurseQ (callback : ℕ → MinDist → Bool × MinDist)
    (dq : AABB → ℚ) : ITree → MinDist → Bool × MinDist × List ℕ
  | .leaf _ _ obj, minDist =>
    let (stop, minDist') := callback obj minDist
    (stop, minDist', [obj])
  | .node _ _ l r, minDist =>
    let d1 := dq l.bv
    let d2 := dq r.bv
    if d2 < d1 then
      if (d2 : MinDist) < minDist then
        match distanceRecurseQ callback dq r minDist with
        | (true, md, tr) => (true, md, tr)
        | (false, md, tr) =>
          if (d1 : MinDist) < md then
            let (s2, md2, tr2) := distanceRecurseQ callback dq l md
            (s2, md2, tr ++ tr2)
          else (false, md, tr)
      else
        if (d1 : MinDist) < minDist then
          distanceRecurseQ callback dq l minDist
        else (false, minDist, [])
    else
      if (d1 : MinDist) < minDist then
        match distanceRecurseQ callback dq l minDist with
        | (true, md, tr) => (true, md, tr)
        | (false, md, tr) =>
          if (d2 : MinDist) < md then
            let (s2, md2, tr2) := distanceRecurseQ callback dq r md
            (s2, md2, tr ++ tr2)
          else (false, md, tr)
      else
        if (d2 : MinDist) < minDist then
          distanceRecurseQ callback dq r minDist
        else (false, minDist, [])

/-- `collisionRecurse(root1, root2, cdata, callback)` (lines 610-640):
node × node collision.  At leaf × leaf the callback fires on overlap; at an
internal pair the overlap test prunes and the larger side — the side that is
internal and whose `bv.size()` is larger — is descended. -/
def collisionRecurse2 (callback : ℕ → ℕ → Bool) :
    ITree → ITree → Bool × List (ℕ × ℕ)
  | .leaf _ bv1 o1, .leaf _ bv2 o2 =>
    if ¬ (bv1.overlap bv2) then (false, [])
    else (callback o1 o2, [(o1, o2)])
  | .node _ bv1 l1 r1, .leaf i2 bv2 o2 =>
    -- root2 is a leaf: descend root1
    if ¬ (bv1.overlap bv2) then (false, [])
    else
      match collisionRecurse2 callback l1 (.leaf i2 bv2 o2) with
      | (true, tr) => (true, tr)
      | (false, tr) =>
        let (s2, tr2) := collisionRecurse2 callback r1 (.leaf i2 bv2 o2)
        (s2, tr ++ tr2)
  | .leaf i1 bv1 o1, .node _ bv2 l2 r2 =>
    -- root1 is a leaf, root2 internal: descend root2
    if ¬ (bv1.overlap bv2) then (false, [])
    else
      match collisionRecurse2 callback (.leaf i1 bv1 o1) l2 with
      | (true, tr) => (true, tr)
      | (false, tr) =>
        let (s2, tr2) := collisionRecurse2 callback (.leaf i1 bv1 o1) r2
        (s2, tr ++ tr2)
  | .node i1 bv1 l1 r1, .node i2 bv2 l2 r2 =>
    if ¬ (bv1.overlap bv2) then (false, [])
    else if bv1.size > bv2.size then
      match collisionRecurse2 callback l1 (.node i2 bv2 l2 r2) with
      | (true, tr) => (true, tr)
      | (false, tr) =>
        let (s2, tr2) := collisionRecurse2 callback r1 (.node i2 bv2 l2 r2)
        (s2, tr ++ tr2)
    else
      match collisionRecurse2 callback (.node i1 bv1 l1 r1) l2 with
      | (true, tr) => (true, tr)
      | (false, tr) =>
        let (s2, tr2) := collisionRecurse2 callback (.node i1 bv1 l1 r1) r2
        (s2, tr ++ tr2)
termination_by t1 t2 => (sizeOf t1, sizeOf t2)

/-- `selfCollisionRecurse(root, cdata, callback)` (lines 666-681): recurse
into both children, then collide the children against each other. -/
def selfCollisionRecurse (callback : ℕ → ℕ → Bool) :
    ITree → Bool × List (ℕ × ℕ)
  | .leaf .. => (false, [])
  | .node _ _ l r =>
    match selfCollisionRecurse callback l with
    | (true, tr) => (true, tr)
    | (false, tr1) =>
      match selfCollisionRecurse callback r with
      | (true, tr) => (true, tr1 ++ tr)
      | (false, tr2) =>
        let (s3, tr3) := collisionRecurse2 callback l r
        (s3, tr1 ++ tr2 ++ tr3)

mutual

/-- `distanceRecurse(root1, root2, cdata, callback, min_dist)` (lines
684-769): node × node distance.  `dist` models `AABB::distance`.  At
leaf × leaf the callback is invoked unconditionally; otherwise the larger
side is descended, the closer child first, each guarded by
`d < min_dist`. -/
def distanceRecurse2 (callback : ℕ → ℕ → MinDist → Bool × MinDist)
    (dist : AABB → AABB → ℚ) :
    ITree → ITree → MinDist → Bool × MinDist × List (ℕ × ℕ)
  | .leaf _ _ o1, .leaf _ _ o2, minDist =>
    let (stop, md') := callback o1 o2 minDist
    (stop, md', [(o1, o2)])
  | .node _ _ l1 r1, .leaf i2 bv2 o2, minDist =>
    distanceDescend1 callback dist l1 r1 (.leaf i2 bv2 o2) minDist
  | .leaf i1 bv1 o1, .node _ _ l2 r2, minDist =>
    distanceDescend2 callback dist (.leaf i1 bv1 o1) l2 r2 minDist
  | .node i1 bv1 l1 r1, .node i2 bv2 l2 r2, minDist =>
    if bv1.size > bv2.size then
      distanceDescend1 callback dist l1 r1 (.node i2 bv2 l2 r2) minDist
    else
      distanceDescend2 callback dist (.node i1 bv1 l1 r1) l2 r2 minDist
termination_by t1 t2 _ => sizeOf t1 + sizeOf t2

/-- Descend side 1 of `distanceRecurse(root1, root2, ...)`:
`d_i = root2->bv.distance(root1->children[i]->bv)`, closer child first, each
recursion guarded by `d < min_dist`. -/
def distanceDescend1 (callback : ℕ → ℕ → MinDist → Bool × MinDist)
    (dist : AABB → AABB → ℚ) (l1 r1 t2 : ITree) (minDist : MinDist) :
    Bool × MinDist × List (ℕ × ℕ) :=
  let d1 := dist t2.bv l1.bv
  let d2 := dist t2.bv r1.bv
  if d2 < d1 then
    if (d2 : MinDist) < minDist then
      match distanceRecurse2 callback dist r1 t2 minDist with
      | (true, md, tr) => (true, md, tr)
      | (false, md, tr) =>
        if (d1 : MinDist) < md then
          let (s2, md2, tr2) := distanceRecurse2 callback dist l1 t2 md
          (s2, md2, tr ++ tr2)
        else (false, md, tr)
    else
      if (d1 : MinDist) < minDist then
        distanceRecurse2 callback dist l1 t2 minDist
      else (false, minDist, [])
  else
    if (d1 : MinDist) < minDist then
      match distanceRecurse2 callback dist l1 t2 minDist with
      | (true, md, tr) => (true, md, tr)
      | (false, md, tr) =>
        if (d2 : MinDist) < md then
          let (s2, md2, tr2) := distanceRecurse2 callback dist r1 t2 md
          (s2, md2, tr ++ tr2)
        else (false, md, tr)
    else
      if (d2 : MinDist) < minDist then
        distanceRecurse2 callback dist r1 t2 minDist
      else (false, minDist, [])
termination_by sizeOf l1 + sizeOf r1 + sizeOf t2
decreasing_by
all_goals simp_wf
all_goals first
  | omega
  | (cases l1 <;> simp_arith)
  | (cases r1 <;> simp_arith)

/-- Descend side 2 of `distanceRecurse(root1, root2, ...)`:
`d_i = root1->bv.distance(root2->children[i]->bv)`. -/
def distanceDescend2 (callback : ℕ → ℕ → MinDist → Bool × MinDist)
    (dist : AABB → AABB → ℚ) (t1 l2 r2 : ITree) (minDist : MinDist) :
    Bool × MinDist × List (ℕ × ℕ) :=
  let d1 := dist t1.bv l2.bv
  let d2 := dist t1.bv r2.bv
  if d2 < d1 then
    if (d2 : MinDist) < minDist then
      match distanceRecurse2 callback dist t1 r2 minDist with
      | (true, md, tr) => (true, md, tr)
      | (false, md, tr) =>
        if (d1 : MinDist) < md then
          let (s2, md2, tr2) := distanceRecurse2 callback dist t1 l2 md
          (s2, md2, tr ++ tr2)
        else (false, md, tr)
    else
      if (d1 : MinDist) < minDist then
        distanceRecurse2 callback dist t1 l2 minDist
      else (false, minDist, [])
  else
    if (d1 : MinDist) < minDist then
      match distanceRecurse2 callback dist t1 l2 minDist with
      | (true, md, tr) => (true, md, tr)
      | (false, md, tr) =>
        if (d2 : MinDist) < md then
          let (s2, md2, tr2) := distanceRecurse2 callback dist t1 r2 md
          (s2, md2, tr ++ tr2)
        else (false, md, tr)
    else
      if (d2 : MinDist) < minDist then
        distanceRecurse2 callback dist t1 r2 minDist
      else (false, minDist, [])
termination_by sizeOf t1 + sizeOf l2 + sizeOf r2
decreasing_by
all_goals simp_wf
all_goals first
  | omega
  | (cases l2 <;> simp_arith)
  | (cases r2 <;> simp_arith)

end

/-- `selfDistanceRecurse(root, cdata, callback, min_dist)` (lines
817-832). -/
def selfDistanceRecurse (callback : ℕ → ℕ → MinDist → Bool × MinDist)
    (dist : AABB → AABB → ℚ) : ITree → MinDist → Bool × MinDist × List (ℕ × ℕ)
  | .leaf .., minDist => (false, minDist, [])
  | .node _ _ l r, minDist =>
    match selfDistanceRecurse callback dist l minDist with
    | (true, md, tr) => (true, md, tr)
    | (false, md1, tr1) =>
      match selfDistanceRecurse callback dist r md1 with
      | (true, md, tr) => (true, md, tr1 ++ tr)
      | (false, md2, tr2) =>
        let (s3, md3, tr3) := distanceRecurse2 callback dist l r md2
        (s3, md3, tr1 ++ tr2 ++ tr3)

/-! ### Octree model

`fcl::OcTree` wraps an octomap occupancy tree (outside the given sources);
modelled from the spec's inbound interface: a node has up to eight optional
children (`nodeChildExists` / `getNodeChild`), an occupancy value
(`getOccupancy`) and free/occupied classifications (`isNodeFree` /
`isNodeOccupied`); the tree carries `getOccupancyThres` and
`getDefaultOccupancy`.  Octree nodes do not carry bounding volumes: the
current node's AABB is the explicit parameter `root2_bv` and child AABBs are
obtained by halving along the three axes. -/

inductive OTNode where
  | mk (occ : ℚ) (free occupied : Bool) (children : List (Option OTNode))

def OTNode.occ : OTNode → ℚ
  | .mk o _ _ _ => o

def OTNode.free : OTNode → Bool
  | .mk _ f _ _ => f

def OTNode.occupied : OTNode → Bool
  | .mk _ _ oc _ => oc

def OTNode.children : OTNode → List (Option OTNode)
  | .mk _ _ _ cs => cs

/-- `tree2->nodeHasChildren(root2)`. -/
def OTNode.hasChildren (n : OTNode) : Bool := n.children.any Option.isSome

/-- Tree-level octree parameters: `getOccupancyThres()` and
`getDefaultOccupancy()`. -/
structure OcTreeInfo where
  occupancyThres : ℚ
  defaultOccupancy : ℚ
deriving DecidableEq, Repr

/-- Modelled from the spec: `computeChildBV(parent_bv, i)` halves the parent
box along each of the three axes, the low or high half being selected by the
three bits of the child index `i`. -/
def computeChildBV (bv : AABB) (i : ℕ) : AABB :=
  let mx := (bv.lo.x + bv.hi.x) / 2
  let my := (bv.lo.y + bv.hi.y) / 2
  let mz := (bv.lo.z + bv.hi.z) / 2
  ⟨⟨if i % 2 = 1 then mx else bv.lo.x,
    if i / 2 % 2 = 1 then my else bv.lo.y,
    if i / 4 % 2 = 1 then mz else bv.lo.z⟩,
   ⟨if i % 2 = 1 then bv.hi.x else mx,
    if i / 2 % 2 = 1 then bv.hi.y else my,
    if i / 4 % 2 = 1 then bv.hi.z else mz⟩⟩

/-- The transient `Box` collision object synthesised during octree traversal
by `constructBox(root2_bv, tf2, *box, box_tf)`: it records the source AABB,
the transform it was placed under, and the cost fields the traversal
assigns.  A fresh `Box` inherits the `CollisionGeometry` defaults
`cost_density = 1`, `threshold_occupied = 1`; traversal sites overwrite some
of them. -/
structure SynthBox (T : Type) where
  srcBv : AABB
  tf : T
  cost_density : ℚ
  threshold_occupied : ℚ

def defaultBoxCostDensity : ℚ := 1
def defaultBoxThresholdOccupied : ℚ := 1

/-! ### Node × octree collision, general (rotated) path (lines 185-293)

`obbOverlap a b` models `convertBV(a, Identity, obb1); convertBV(b, tf2,
obb2); obb1.overlap(obb2)` for the fixed query transform `tf2`; `objFree`
models `CollisionObject::isFree()` of the tree-side payloads. -/

mutual

def octCollisionRecurseR {T : Type} (info : OcTreeInfo)
    (obbOverlap : AABB → AABB → Bool) (objFree : ℕ → Bool) (tf2 : T)
    (callback : ℕ → SynthBox T → Bool) :
    ITree → Option OTNode → AABB → Bool × List (ℕ × SynthBox T)
  | .leaf _ bv1 o1, none, root2bv =>
    -- null octree node against a tree leaf: synthesise a box carrying the
    -- octree's default occupancy
    if ¬ objFree o1 then
      if obbOverlap bv1 root2bv then
        let box : SynthBox T :=
          ⟨root2bv, tf2, info.defaultOccupancy, defaultBoxThresholdOccupied⟩
        (callback o1 box, [(o1, box)])
      else (false, [])
    else (false, [])
  | .node _ _ l r, none, root2bv =>
    match octCollisionRecurseR info obbOverlap objFree tf2 callback l none root2bv with
    | (true, tr) => (true, tr)
    | (false, tr) =>
      let (s, tr2) :=
        octCollisionRecurseR info obbOverlap objFree tf2 callback r none root2bv
      (s, tr ++ tr2)
  | .leaf i1 bv1 o1, some n, root2bv =>
    if ¬ n.hasChildren then
      -- terminal overlap: tree leaf against childless octree node
      if ¬ n.free ∧ ¬ objFree o1 then
        if obbOverlap bv1 root2bv then
          let box : SynthBox T := ⟨root2bv, tf2, n.occ, info.occupancyThres⟩
          (callback o1 box, [(o1, box)])
        else (false, [])
      else (false, [])
    else
      if n.free || ¬ obbOverlap bv1 root2bv then (false, [])
      else
        -- tree side is a leaf, octree node has children: descend the octree
        octColChildrenR info obbOverlap objFree tf2 callback
          (.leaf i1 bv1 o1) n.children 0 root2bv
  | .node i1 bv1 l r, some n, root2bv =>
    if n.free || ¬ obbOverlap bv1 root2bv then (false, [])
    else if ¬ n.hasChildren || bv1.size > root2bv.size then
      -- descend the tree side
      match octCollisionRecurseR info obbOverlap objFree tf2 callback
          l (some n) root2bv with
      | (true, tr) => (true, tr)
      | (false, tr) =>
        let (s, tr2) :=
          octCollisionRecurseR info obbOverlap objFree tf2 callback
            r (some n) root2bv
        (s, tr ++ tr2)
    else
      octColChildrenR info obbOverlap objFree tf2 callback
        (.node i1 bv1 l r) n.children 0 root2bv
termination_by root1 o2 _ => sizeOf root1 + sizeOf o2
decreasing_by
all_goals simp_wf
all_goals try omega
all_goals (cases n; simp_arith [OTNode.children])

/-- The `for(unsigned int i = 0; i < 8; ++i)` loop over the octree node's
child slots: an existing child is recursed into with its computed child box,
an absent child is recursed into as a null node with the same child box. -/
def octColChildrenR {T : Type} (info : OcTreeInfo)
    (obbOverlap : AABB → AABB → Bool) (objFree : ℕ → Bool) (tf2 : T)
    (callback : ℕ → SynthBox T → Bool) (root1 : ITree) :
    List (Option OTNode) → ℕ → AABB → Bool × List (ℕ × SynthBox T)
  | [], _, _ => (false, [])
  | some c :: rest, i, root2bv =>
    match octCollisionRecurseR info obbOverlap objFree tf2 callback
        root1 (some c) (computeChildBV root2bv i) with
    | (true, tr) => (true, tr)
    | (false, tr) =>
      let (s, tr2) := octColChildrenR info obbOverlap objFree tf2 callback
        root1 rest (i + 1) root2bv
      (s, tr ++ tr2)
  | none :: rest, i, root2bv =>
    match octCollisionRecurseR info obbOverlap objFree tf2 callback
        root1 none (computeChildBV root2bv i) with
    | (true, tr) => (true, tr)
    | (false, tr) =>
      let (s, tr2) := octColChildrenR info obbOverlap objFree tf2 callback
        root1 rest (i + 1) root2bv
      (s, tr ++ tr2)
termination_by cs _ _ => sizeOf root1 + sizeOf cs
decreasing_by
all_goals simp_wf
all_goals omega

end

/-! ### Node × octree collision, translation-only fast path (lines 296-399)

Taken by `collisionRecurse` when `tf2.linear().isIdentity()`: plain AABB
overlap against the translated octree box.  In the null-node case this path
sets the synthesised box's `cost_density` to the tree's *occupancy
threshold* (`getOccupancyThres()`), not its default occupancy. -/

mutual

def octCollisionRecurseT (info : OcTreeInfo) (objFree : ℕ → Bool)
    (translation2 : Vec3) (callback : ℕ → SynthBox Vec3 → Bool) :
    ITree → Option OTNode → AABB → Bool × List (ℕ × SynthBox Vec3)
  | .leaf _ bv1 o1, none, root2bv =>
    if ¬ objFree o1 then
      if bv1.overlap (root2bv.translate translation2) then
        let box : SynthBox Vec3 :=
          ⟨root2bv, translation2, info.occupancyThres, defaultBoxThresholdOccupied⟩
        (callback o1 box, [(o1, box)])
      else (false, [])
    else (false, [])
  | .node _ _ l r, none, root2bv =>
    match octCollisionRecurseT info objFree translation2 callback l none root2bv with
    | (true, tr) => (true, tr)
    | (false, tr) =>
      let (s, tr2) :=
        octCollisionRecurseT info objFree translation2 callback r none root2bv
      (s, tr ++ tr2)
  | .leaf i1 bv1 o1, some n, root2bv =>
    if ¬ n.hasChildren then
      if ¬ n.free ∧ ¬ objFree o1 then
        if bv1.overlap (root2bv.translate translation2) then
          let box : SynthBox Vec3 :=
            ⟨root2bv, translation2, n.occ, info.occupancyThres⟩
          (callback o1 box, [(o1, box)])
        else (false, [])
      else (false, [])
    else
      if n.free || ¬ bv1.overlap (root2bv.translate translation2) then (false, [])
      else
        octColChildrenT info objFree translation2 callback
          (.leaf i1 bv1 o1) n.children 0 root2bv
  | .node i1 bv1 l r, some n, root2bv =>
    if n.free || ¬ bv1.overlap (root2bv.translate translation2) then (false, [])
    else if ¬ n.hasChildren || bv1.size > root2bv.size then
      match octCollisionRecurseT info objFree translation2 callback
          l (some n) root2bv with
      | (true, tr) => (true, tr)
      | (false, tr) =>
        let (s, tr2) :=
          octCollisionRecurseT info objFree translation2 callback
            r (some n) root2bv
        (s, tr ++ tr2)
    else
      octColChildrenT info objFree translation2 callback
        (.node i1 bv1 l r) n.children 0 root2bv
termination_by root1 o2 _ => sizeOf root1 + sizeOf o2
decreasing_by
all_goals simp_wf
all_goals try omega
all_goals (cases n; simp_arith [OTNode.children])

def octColChildrenT (info : OcTreeInfo) (objFree : ℕ → Bool)
    (translation2 : Vec3) (callback : ℕ → SynthBox Vec3 → Bool)
    (root1 : ITree) :
    List (Option OTNode) → ℕ → AABB → Bool × List (ℕ × SynthBox Vec3)
  | [], _, _ => (false, [])
  | some c :: rest, i, root2bv =>
    match octCollisionRecurseT info objFree translation2 callback
        root1 (some c) (computeChildBV root2bv i) with
    | (true, tr) => (true, tr)
    | (false, tr) =>
      let (s, tr2) := octColChildrenT info objFree translation2 callback
        root1 rest (i + 1) root2bv
      (s, tr ++ tr2)
  | none :: rest, i, root2bv =>
    match octCollisionRecurseT info objFree translation2 callback
        root1 none (computeChildBV root2bv i) with
    | (true, tr) => (true, tr)
    | (false, tr) =>
      let (s, tr2) := octColChildrenT info objFree translation2 callback
        root1 rest (i + 1) root2bv
      (s, tr ++ tr2)
termination_by cs _ _ => sizeOf root1 + sizeOf cs
decreasing_by
all_goals simp_wf
all_goals omega

end

/-! ### Node × octree distance, general path (lines 402-489)

`convertBVf bv` models `convertBV(bv, tf2, aabb2)` (the AABB of `bv` placed
under the fixed `tf2`); `dist` models `AABB::distance`.  Distance traversal
never recurses into absent octree children and prunes free-of-occupancy
nodes via `isNodeOccupied`. -/

mutual

def octDistanceRecurseR {T : Type} (convertBVf : AABB → AABB)
    (dist : AABB → AABB → ℚ) (tf2 : T)
    (callback : ℕ → SynthBox T → MinDist → Bool × MinDist) :
    ITree → OTNode → AABB → MinDist → Bool × MinDist × List (ℕ × SynthBox T)
  | .leaf i1 bv1 o1, n, root2bv, minDist =>
    if ¬ n.hasChildren then
      if n.occupied then
        let box : SynthBox T :=
          ⟨root2bv, tf2, defaultBoxCostDensity, defaultBoxThresholdOccupied⟩
        let (stop, md') := callback o1 box minDist
        (stop, md', [(o1, box)])
      else (false, minDist, [])
    else
      if ¬ n.occupied then (false, minDist, [])
      else
        -- tree side is a leaf and the octree node has children: descend octree
        octDistChildrenR convertBVf dist tf2 callback
          (.leaf i1 bv1 o1) n.children 0 root2bv minDist
  | .node i1 bv1 l r, n, root2bv, minDist =>
    if ¬ n.occupied then (false, minDist, [])
    else if ¬ n.hasChildren || bv1.size > root2bv.size then
      let aabb2 := convertBVf root2bv
      let d1 := dist aabb2 l.bv
      let d2 := dist aabb2 r.bv
      if d2 < d1 then
        if (d2 : MinDist) < minDist then
          match octDistanceRecurseR convertBVf dist tf2 callback r n root2bv minDist with
          | (true, md, tr) => (true, md, tr)
          | (false, md, tr) =>
            if (d1 : MinDist) < md then
              let (s2, md2, tr2) :=
                octDistanceRecurseR convertBVf dist tf2 callback l n root2bv md
              (s2, md2, tr ++ tr2)
            else (false, md, tr)
        else
          if (d1 : MinDist) < minDist then
            octDistanceRecurseR convertBVf dist tf2 callback l n root2bv minDist
          else (false, minDist, [])
      else
        if (d1 : MinDist) < minDist then
          match octDistanceRecurseR convertBVf dist tf2 callback l n root2bv minDist with
          | (true, md, tr) => (true, md, tr)
          | (false, md, tr) =>
            if (d2 : MinDist) < md then
              let (s2, md2, tr2) :=
                octDistanceRecurseR convertBVf dist tf2 callback r n root2bv md
              (s2, md2, tr ++ tr2)
            else (false, md, tr)
        else
          if (d2 : MinDist) < minDist then
            octDistanceRecurseR convertBVf dist tf2 callback r n root2bv minDist
          else (false, minDist, [])
    else
      octDistChildrenR convertBVf dist tf2 callback
        (.node i1 bv1 l r) n.children 0 root2bv minDist
termination_by root1 n _ _ => sizeOf root1 + sizeOf n
decreasing_by
all_goals simp_wf
all_goals try omega
all_goals (cases n; simp_arith [OTNode.children])

def octDistChildrenR {T : Type} (convertBVf : AABB → AABB)
    (dist : AABB → AABB → ℚ) (tf2 : T)
    (callback : ℕ → SynthBox T → MinDist → Bool × MinDist) (root1 : ITree) :
    List (Option OTNode) → ℕ → AABB → MinDist →
      Bool × MinDist × List (ℕ × SynthBox T)
  | [], _, _, minDist => (false, minDist, [])
  | some c :: rest, i, root2bv, minDist =>
    let childBv := computeChildBV root2bv i
    let aabb2 := convertBVf childBv
    let d := dist root1.bv aabb2
    if (d : MinDist) < minDist then
      match octDistanceRecurseR convertBVf dist tf2 callback root1 c childBv minDist with
      | (true, md, tr) => (true, md, tr)
      | (false, md, tr) =>
        let (s, md2, tr2) := octDistChildrenR convertBVf dist tf2 callback
          root1 rest (i + 1) root2bv md
        (s, md2, tr ++ tr2)
    else
      octDistChildrenR convertBVf dist tf2 callback root1 rest (i + 1) root2bv minDist
  | none :: rest, i, root2bv, minDist =>
    octDistChildrenR convertBVf dist tf2 callback root1 rest (i + 1) root2bv minDist
termination_by cs _ _ _ => sizeOf root1 + sizeOf cs

end

/-! ### Node × octree distance, translation-only fast path (lines 510-595) -/

mutual

def octDistanceRecurseT (dist : AABB → AABB → ℚ) (translation2 : Vec3)
    (callback : ℕ → SynthBox Vec3 → MinDist → Bool × MinDist) :
    ITree → OTNode → AABB → MinDist → Bool × MinDist × List (ℕ × SynthBox Vec3)
  | .leaf i1 bv1 o1, n, root2bv, minDist =>
    if ¬ n.hasChildren then
      if n.occupied then
        let box : SynthBox Vec3 :=
          ⟨root2bv, translation2, defaultBoxCostDensity, defaultBoxThresholdOccupied⟩
        let (stop, md') := callback o1 box minDist
        (stop, md', [(o1, box)])
      else (false, minDist, [])
    else
      if ¬ n.occupied then (false, minDist, [])
      else
        octDistChildrenT dist translation2 callback
          (.leaf i1 bv1 o1) n.children 0 root2bv minDist
  | .node i1 bv1 l r, n, root2bv, minDist =>
    if ¬ n.occupied then (false, minDist, [])
    else if ¬ n.hasChildren || bv1.size > root2bv.size then
      let aabb2 := root2bv.translate translation2
      let d1 := dist aabb2 l.bv
      let d2 := dist aabb2 r.bv
      if d2 < d1 then
        if (d2 : MinDist) < minDist then
          match octDistanceRecurseT dist translation2 callback r n root2bv minDist with
          | (true, md, tr) => (true, md, tr)
          | (false, md, tr) =>
            if (d1 : MinDist) < md then
              let (s2, md2, tr2) :=
                octDistanceRecurseT dist translation2 callback l n root2bv md
              (s2, md2, tr ++ tr2)
            else (false, md, tr)
        else
          if (d1 : MinDist) < minDist then
            octDistanceRecurseT dist translation2 callback l n root2bv minDist
          else (false, minDist, [])
      else
        if (d1 : MinDist) < minDist then
          match octDistanceRecurseT dist translation2 callback l n root2bv minDist with
          | (true, md, tr) => (true, md, tr)
          | (false, md, tr) =>
            if (d2 : MinDist) < md then
              let (s2, md2, tr2) :=
                octDistanceRecurseT dist translation2 callback r n root2bv md
              (s2, md2, tr ++ tr2)
            else (false, md, tr)
        else
          if (d2 : MinDist) < minDist then
            octDistanceRecurseT dist translation2 callback r n root2bv minDist
          else (false, minDist, [])
    else
      octDistChildrenT dist translation2 callback
        (.node i1 bv1 l r) n.children 0 root2bv minDist
termination_by root1 n _ _ => sizeOf root1 + sizeOf n
decreasing_by
all_goals simp_wf
all_goals try omega
all_goals (cases n; simp_arith [OTNode.children])

def octDistChildrenT (dist : AABB → AABB → ℚ) (translation2 : Vec3)
    (callback : ℕ → SynthBox Vec3 → MinDist → Bool × MinDist) (root1 : ITree) :
    List (Option OTNode) → ℕ → AABB → MinDist →
      Bool × MinDist × List (ℕ × SynthBox Vec3)
  | [], _, _, minDist => (false, minDist, [])
  | some c :: rest, i, root2bv, minDist =>
    let childBv := computeChildBV root2bv i
    let aabb2 := childBv.translate translation2
    let d := dist root1.bv aabb2
    if (d : MinDist) < minDist then
      match octDistanceRecurseT dist translation2 callback root1 c childBv minDist with
      | (true, md, tr) => (true, md, tr)
      | (false, md, tr) =>
        let (s, md2, tr2) := octDistChildrenT dist translation2 callback
          root1 rest (i + 1) root2bv md
        (s, md2, tr ++ tr2)
    else
      octDistChildrenT dist translation2 callback root1 rest (i + 1) root2bv minDist
  | none :: rest, i, root2bv, minDist =>
    octDistChildrenT dist translation2 callback root1 rest (i + 1) root2bv minDist
termination_by cs _ _ _ => sizeOf root1 + sizeOf cs

end

/-! ### The manager (`DynamicAABBTreeCollisionManager`)

The manager owns a `HierarchyTree` (`dtree`, whose root is `none` when
empty; `size() == 0` exactly when the root pointer is null) and the object
table `table` (an `unordered_map` from object handle to leaf-node pointer,
modelled as an association list from `ℕ` handles to `Option ℕ` node ids,
`none` standing for a null node pointer).  External objects are `ℕ` handles;
an object's current AABB (`obj->getAABB()`) is passed to each operation
explicitly.  `HierarchyTree` itself lives outside the given sources; the
operations the claims need (`size`, `getMaxHeight`, `remove`, leaf lookup)
are modelled from the spec, while `update`, `balanceIncremental` and
`balanceTopdown` stay opaque function parameters. -/

structure Manager where
  dtreeRoot : Option ITree
  table : List (ℕ × Option ℕ)
  setup_ : Bool
  max_tree_nonbalanced_level : ℤ
  tree_incremental_balance_pass : ℕ
deriving DecidableEq, Repr

/-- `HierarchyTree::size()`: number of leaves. -/
def htSize : Option ITree → ℕ
  | none => 0
  | some t => t.leafCount

/-- `HierarchyTree::getMaxHeight()`. -/
def htMaxHeight : Option ITree → ℕ
  | none => 0
  | some t => t.height

/-- `table.find(obj)`: the stored node pointer, if the key is present. -/
def tableFind (table : List (ℕ × Option ℕ)) (obj : ℕ) : Option (Option ℕ) :=
  (table.find? (fun e => e.1 == obj)).map Prod.snd

/-- `table.erase(obj)`. -/
def tableErase (table : List (ℕ × Option ℕ)) (obj : ℕ) : List (ℕ × Option ℕ) :=
  table.filter (fun e => e.1 != obj)

/-- `table[obj]`: `std::unordered_map::operator[]` returns the mapped node
pointer, value-initialising (to a null pointer) and inserting a fresh entry
when the key is missing.  Returns the read value and the possibly extended
table. -/
def tableBracket (table : List (ℕ × Option ℕ)) (obj : ℕ) :
    Option ℕ × List (ℕ × Option ℕ) :=
  match tableFind table obj with
  | some v => (v, table)
  | none => (none, table ++ [(obj, none)])

/-- The stored `bv` of the leaf with node id `nid` (dereferencing
`node->bv`). -/
def ITree.findLeafBv : ITree → ℕ → Option AABB
  | .leaf i bv _, nid => if i = nid then some bv else none
  | .node _ _ l r, nid => (l.findLeafBv nid).orElse (fun _ => r.findLeafBv nid)

/-- Refit step used by leaf removal, modelled from the spec: the parent keeps
its old `bv` when it already contains the merged child boxes, otherwise it
takes the merge. -/
def refitNode (i : ℕ) (oldBv : AABB) (l r : ITree) : ITree :=
  let m := AABB.merge l.bv r.bv
  .node i (if oldBv.containsBox m then oldBv else m) l r

/-- Modelled from the spec: `HierarchyTree::remove(leaf)` replaces the
removed leaf's sibling into the grandparent's slot (or makes it root) and
refits ancestors upward.  Outer `none` means the id is not a leaf of this
subtree; `some none` means the subtree consisted of exactly that leaf. -/
def ITree.removeLeaf : ITree → ℕ → Option (Option ITree)
  | .leaf i _ _, nid => if i = nid then some none else none
  | .node i bv l r, nid =>
    match l.removeLeaf nid with
    | some none => some (some r)
    | some (some l') => some (some (refitNode i bv l' r))
    | none =>
      match r.removeLeaf nid with
      | some none => some (some l)
      | some (some r') => some (some (refitNode i bv l r'))
      | none => none

/-- Modelled from the spec: `HierarchyTree::remove` on a node pointer.
Removing a node that is not a node of this tree — in particular a null
pointer, as handed over by `table[obj]` for an unregistered object — is a
programming error (the spec prescribes an assertion); modelled as `none`. -/
def htRemove (root : Option ITree) (nodeRef : Option ℕ) : Option (Option ITree) :=
  match nodeRef with
  | none => none
  | some nid =>
    match root with
    | none => none
    | some t => t.removeLeaf nid

/-- `DynamicAABBTreeCollisionManager::unregisterObject(obj)` (lines
878-884): reads the node pointer through `table[obj]`, erases the table
entry, and removes the node from the tree.  `none` marks the
programming-error outcome of `dtree.remove` on a node not in the tree. -/
def unregisterObject (m : Manager) (obj : ℕ) : Option Manager :=
  let (node, table1) := tableBracket m.table obj
  let table2 := tableErase table1 obj
  match htRemove m.dtreeRoot node with
  | some root' => some { m with dtreeRoot := root', table := table2 }
  | none => none

/-- The balance condition of `setup()` (lines 887-909):
`height - log(num)/log(2) < max_tree_nonbalanced_level`, stated in the
equivalent exact integer form `2 ^ (height - max_level) < num` (for
`num ≥ 1`, `height - log₂ num < L  ↔  log₂ num > height - L  ↔
num > 2 ^ (height - L)`; the C++ evaluates the comparison in floating
point). -/
def setupBalanceCond (height num : ℕ) (maxLevel : ℤ) : Bool :=
  decide ((2 : ℚ) ^ ((height : ℤ) - maxLevel) < (num : ℚ))

/-- `DynamicAABBTreeCollisionManager::setup()` (lines 887-909).  The actual
balancing operations of `HierarchyTree` are outside the given sources and
passed as `balInc` (incremental, taking the pass count) and `balTop`
(top-down rebuild). -/
def setup (balInc : Option ITree → ℕ → Option ITree)
    (balTop : Option ITree → Option ITree) (m : Manager) : Manager :=
  if m.setup_ then m
  else
    let num := htSize m.dtreeRoot
    if num = 0 then { m with setup_ := true }
    else
      let height := htMaxHeight m.dtreeRoot
      if setupBalanceCond height num m.max_tree_nonbalanced_level then
        { m with
          dtreeRoot := balInc m.dtreeRoot m.tree_incremental_balance_pass,
          setup_ := true }
      else
        { m with dtreeRoot := balTop m.dtreeRoot, setup_ := true }

/-- `DynamicAABBTreeCollisionManager::update_(updated_obj)` (lines 930-940):
if the object is in the table and its current AABB differs from the leaf's
stored `bv` (`AABB::equal`, modelled as exact equality), `dtree.update(node,
aabb)` — the opaque parameter `htUpdate` — is invoked; in every case the
`setup_` flag is cleared.  `none` models the (unreachable for registered
objects) dereference of an invalid node pointer. -/
def update_ (htUpdate : Option ITree → ℕ → AABB → Option ITree)
    (m : Manager) (obj : ℕ) (objAabb : AABB) : Option Manager :=
  match tableFind m.table obj with
  | none => some { m with setup_ := false }
  | some none => none
  | some (some nid) =>
    match m.dtreeRoot.bind (fun t => t.findLeafBv nid) with
    | none => none
    | some bv =>
      if bv = objAabb then some { m with setup_ := false }
      else
        some { m with dtreeRoot := htUpdate m.dtreeRoot nid objAabb,
                      setup_ := false }

/-- `DynamicAABBTreeCollisionManager::update(updated_obj)` (lines 943-948):
`update_(updated_obj); setup();`. -/
def updateObj (htUpdate : Option ITree → ℕ → AABB → Option ITree)
    (balInc : Option ITree → ℕ → Option ITree)
    (balTop : Option ITree → Option ITree)
    (m : Manager) (obj : ℕ) (objAabb : AABB) : Option Manager :=
  (update_ htUpdate m obj objAabb).map (setup balInc balTop)

/-! ### Public queries (lines 960-1044)

Each query starts with `if(size() == 0) return;` (manager × manager queries
also check the other manager); `size() == 0` holds exactly when the tree
root is null.  Distance queries then initialise
`min_dist = std::numeric_limits<Scalar>::max()` (modelled `⊤`) and the
octree variants of `collide(obj)`/`distance(obj)` are reached when the
query object is an octree and `octree_as_geometry_*` is false; they are
exposed here as separate entry points per transform path, since the
dispatching `collisionRecurse`/`distanceRecurse` overloads (lines 492-506,
598-605) select the translation path exactly when `tf2.linear()` is the
identity. -/

def managerCollideObj (m : Manager) (queryAabb : AABB) (callback : ℕ → Bool) :
    Bool × List ℕ :=
  match m.dtreeRoot with
  | none => (false, [])
  | some root => collisionRecurseQ callback queryAabb root

def managerDistanceObj (m : Manager) (dq : AABB → ℚ)
    (callback : ℕ → MinDist → Bool × MinDist) : MinDist × List ℕ :=
  match m.dtreeRoot with
  | none => (⊤, [])
  | some root =>
    let (_, md, tr) := distanceRecurseQ callback dq root ⊤
    (md, tr)

def managerSelfCollide (m : Manager) (callback : ℕ → ℕ → Bool) :
    Bool × List (ℕ × ℕ) :=
  match m.dtreeRoot with
  | none => (false, [])
  | some root => selfCollisionRecurse callback root

def managerSelfDistance (m : Manager) (dist : AABB → AABB → ℚ)
    (callback : ℕ → ℕ → MinDist → Bool × MinDist) :
    MinDist × List (ℕ × ℕ) :=
  match m.dtreeRoot with
  | none => (⊤, [])
  | some root =>
    let (_, md, tr) := selfDistanceRecurse callback dist root ⊤
    (md, tr)

def managerCollideMgr (m other : Manager) (callback : ℕ → ℕ → Bool) :
    Bool × List (ℕ × ℕ) :=
  match m.dtreeRoot, other.dtreeRoot with
  | none, _ => (false, [])
  | _, none => (false, [])
  | some root1, some root2 => collisionRecurse2 callback root1 root2

def managerDistanceMgr (m other : Manager) (dist : AABB → AABB → ℚ)
    (callback : ℕ → ℕ → MinDist → Bool × MinDist) :
    MinDist × List (ℕ × ℕ) :=
  match m.dtreeRoot, other.dtreeRoot with
  | none, _ => (⊤, [])
  | _, none => (⊤, [])
  | some root1, some root2 =>
    let (_, md, tr) := distanceRecurse2 callback dist root1 root2 ⊤
    (md, tr)

def managerCollideOctreeRot {T : Type} (m : Manager) (info : OcTreeInfo)
    (obbOverlap : AABB → AABB → Bool) (objFree : ℕ → Bool) (tf2 : T)
    (callback : ℕ → SynthBox T → Bool) (otRoot : Option OTNode)
    (otRootBv : AABB) : Bool × List (ℕ × SynthBox T) :=
  match m.dtreeRoot with
  | none => (false, [])
  | some root =>
    octCollisionRecurseR info obbOverlap objFree tf2 callback root otRoot otRootBv

def managerCollideOctreeTrans (m : Manager) (info : OcTreeInfo)
    (objFree : ℕ → Bool) (translation2 : Vec3)
    (callback : ℕ → SynthBox Vec3 → Bool) (otRoot : Option OTNode)
    (otRootBv : AABB) : Bool × List (ℕ × SynthBox Vec3) :=
  match m.dtreeRoot with
  | none => (false, [])
  | some root =>
    octCollisionRecurseT info objFree translation2 callback root otRoot otRootBv

def managerDistanceOctreeRot {T : Type} (m : Manager)
    (convertBVf : AABB → AABB) (dist : AABB → AABB → ℚ) (tf2 : T)
    (callback : ℕ → SynthBox T → MinDist → Bool × MinDist) (otRoot : OTNode)
    (otRootBv : AABB) : MinDist × List (ℕ × SynthBox T) :=
  match m.dtreeRoot with
  | none => (⊤, [])
  | some root =>
    let (_, md, tr) :=
      octDistanceRecurseR convertBVf dist tf2 callback root otRoot otRootBv ⊤
    (md, tr)

def managerDistanceOctreeTrans (m : Manager) (dist : AABB → AABB → ℚ)
    (translation2 : Vec3)
    (callback : ℕ → SynthBox Vec3 → MinDist → Bool × MinDist) (otRoot : OTNode)
    (otRootBv : AABB) : MinDist × List (ℕ × SynthBox Vec3) :=
  match m.dtreeRoot with
  | none => (⊤, [])
  | some root =>
    let (_, md, tr) :=
      octDistanceRecurseT dist translation2 callback root otRoot otRootBv ⊤
    (md, tr)

/-! ### Reference specifications used to state the traversal claims -/

/-- All (payload, payload) pairs of leaves of `t1` × leaves of `t2` whose
bounding volumes overlap, in product order: the set of pairs a node × node
collision traversal must visit. -/
def collidePairsRef (t1 t2 : ITree) : List (ℕ × ℕ) :=
  t1.leafRecords.flatMap fun a =>
    t2.leafRecords.filterMap fun b =>
      if a.2.overlap b.2 then some (a.1, b.1) else none

/-- The overlapping leaf pairs a self-collision traversal must visit: pairs
within the left subtree, pairs within the right subtree, then cross pairs. -/
def selfPairsRef : ITree → List (ℕ × ℕ)
  | .leaf .. => []
  | .node _ _ l r => selfPairsRef l ++ selfPairsRef r ++ collidePairsRef l r

/-- The minimum of `dObj` over the leaves of `t` (`⊤` for no leaves): the
reference value of a completed distance query. -/
def treeDistMin (dObj : ℕ → ℚ) (t : ITree) : MinDist :=
  (t.leafObjs.map fun o => ((dObj o : ℚ) : MinDist)).foldr min ⊤

/-- `dq` is antitone along the containment structure of `t`: each internal
node's bounding volume is at least as close to the query as either child's
(true of `AABB::distance` whenever `t` satisfies the containment
invariant). -/
def dqMonoOn (dq : AABB → ℚ) : ITree → Bool
  | .leaf .. => true
  | .node _ bv l r =>
    decide (dq bv ≤ dq l.bv) && decide (dq bv ≤ dq r.bv) &&
    dqMonoOn dq l && dqMonoOn dq r

/-! ## Theorems -/

/-! ### Claim C1 (continuous-collision error handling) -/

theorem continuousCollideBVHPolynomial_unsupported {T : Type}
    (polyKernel : ℕ → CCResult T → ℚ × CCResult T) (o1 o2 : CCGeometry)
    (result : CCResult T)
    (h : polySupportedPair o1.nodeType o2.nodeType = false) :
    continuousCollideBVHPolynomial polyKernel o1 o2 result = (-1, result) := by
  unfold continuousCollideBVHPolynomial
  unfold polySupportedPair at h
  split_ifs <;>
    simp_all [BV_AABB, BV_OBB, BV_RSS, BV_kIOS, BV_OBBRSS, BV_KDOP16,
      BV_KDOP18, BV_KDOP24]

/-- Claim C1, counterexample.  The claim asserts that on unsupported
combinations `continuousCollide` "returns the sentinel -1 and sets
`result.is_collide = false`".  The reserved ray-shooting path returns `-1`
but never writes `result`: a result arriving with `is_collide = true` keeps
it. -/
theorem claimC1_counterexample :
    (continuousCollide (fun _ : ℚ => ()) (fun _ => ()) (fun _ _ => false)
        (fun _ r => (0, r)) (fun _ r => (0, r))
        ⟨OT_GEOM, BV_UNKNOWN⟩ ⟨OT_GEOM, BV_UNKNOWN⟩
        ⟨CCDC_RAY_SHOOTING, CCDM_TRANS, GST_LIBCCD, 10, 1/10⟩
        ⟨true, 0, (), ()⟩).1 = -1 ∧
    ¬ ((continuousCollide (fun _ : ℚ => ()) (fun _ => ()) (fun _ _ => false)
        (fun _ r => (0, r)) (fun _ r => (0, r))
        ⟨OT_GEOM, BV_UNKNOWN⟩ ⟨OT_GEOM, BV_UNKNOWN⟩
        ⟨CCDC_RAY_SHOOTING, CCDM_TRANS, GST_LIBCCD, 10, 1/10⟩
        ⟨true, 0, (), ()⟩).2.is_collide = false) := by
  constructor
  · rfl
  · simp [continuousCollide, CCDC_RAY_SHOOTING, CCDC_NAIVE,
      CCDC_CONSERVATIVE_ADVANCEMENT]

/-- Claim C1, amended: for every unsupported continuous-collision
combination — an unrecognised `ccd_solver_type`, the reserved ray-shooting
solver, a polynomial-solver request whose inputs are not both BVH meshes
with translation motion, or a polynomial BV kind with no kernel —
`continuousCollide` returns the sentinel `-1` and leaves `result` untouched
(so `is_collide` is `false` only when it already was, as with a freshly
default-initialised result). -/
theorem claimC1 {T : Type} (motion1 motion2 : ℚ → T) (collideAt : T → T → Bool)
    (caSolver polyKernel : ℕ → CCResult T → ℚ × CCResult T)
    (o1 o2 : CCGeometry) (request : CCRequest) (result : CCResult T)
    (h : unsupportedCCDCombo o1 o2 request) :
    continuousCollide motion1 motion2 collideAt caSolver polyKernel o1 o2
      request result = (-1, result) := by
  unfold continuousCollide
  rcases h with ⟨h0, h1, h2, h3⟩ | h2 | ⟨h3, hng⟩ | ⟨h3, hb1, hb2, hm, hbv⟩
  · rw [if_neg h0, if_neg h1, if_neg h2, if_neg h3]
  · rw [h2, if_neg (by decide), if_neg (by decide), if_pos rfl]
  · rw [h3, if_neg (by decide), if_neg (by decide), if_neg (by decide),
      if_pos rfl, if_neg hng]
  · rw [h3, if_neg (by decide), if_neg (by decide), if_neg (by decide),
      if_pos rfl, if_pos ⟨hb1, hb2, hm⟩]
    exact continuousCollideBVHPolynomial_unsupported polyKernel o1 o2 result hbv

/-- Claim C1, witness: the amended theorem applied to a concrete
ray-shooting request. -/
theorem claimC1_witness :
    continuousCollide (fun _ : ℚ => ()) (fun _ => ()) (fun _ _ => false)
      (fun _ r => (0, r)) (fun _ r => (0, r))
      ⟨OT_GEOM, BV_UNKNOWN⟩ ⟨OT_GEOM, BV_UNKNOWN⟩
      ⟨CCDC_RAY_SHOOTING, CCDM_TRANS, GST_LIBCCD, 10, 1/10⟩
      ⟨false, 0, (), ()⟩ = (-1, ⟨false, 0, (), ()⟩) :=
  claimC1 _ _ _ _ _ _ _ _ _ (by
    right; left; decide)

/-! ### Claim C10 (naive sampling well-definedness) -/

theorem naiveSample_den_pos (n : ℕ) (h2 : 2 ≤ n) :
    (0 : ℚ) < ((n - 1 : ℕ) : ℚ) := by
  have : 1 ≤ n - 1 := by omega
  exact_mod_cast Nat.lt_of_lt_of_le Nat.zero_lt_one this

theorem naiveSample_lt (n i j : ℕ) (h2 : 2 ≤ n) (hij : i < j) :
    naiveSample n i < naiveSample n j := by
  unfold naiveSample
  have hd := naiveSample_den_pos n h2
  have hij' : (i : ℚ) < (j : ℚ) := by exact_mod_cast hij
  exact div_lt_div_of_pos_right hij' hd

/-- Claim C10: in `continuousCollideNaive` the sample time `i / (n_iter - 1)`
has no guard on its denominator.  When `n_iter = min(num_max_iterations,
⌈1/toc_err⌉) ≥ 2` it is well defined — nonzero denominator, samples spanning
exactly `t = 0` through `t = 1` in strictly increasing order; when
`n_iter = 1` (as happens for `num_max_iterations = 1` with any
`0 < toc_err ≤ 1`) the single iteration `i = 0` computes `0 / 0` (`0.0/0.0`,
a NaN, in the C++ floating-point evaluation). -/
theorem claimC10 (num_max_iterations : ℕ) (toc_err : ℚ) (n : ℕ)
    (hn : n = nIter num_max_iterations toc_err) :
    (2 ≤ n →
      ((n - 1 : ℕ) : ℚ) ≠ 0 ∧
      naiveSample n 0 = 0 ∧
      naiveSample n (n - 1) = 1 ∧
      (∀ i j, i < j → j < n → naiveSample n i < naiveSample n j)) ∧
    (n = 1 →
      ((n - 1 : ℕ) : ℚ) = 0 ∧ naiveSample n 0 = (0 : ℚ) / (0 : ℚ)) ∧
    (num_max_iterations = 1 → 0 < toc_err → toc_err ≤ 1 → n = 1) := by
  refine ⟨fun h2 => ⟨?_, ?_, ?_, ?_⟩, fun h1 => ⟨?_, ?_⟩, fun hmax hpos hle => ?_⟩
  · exact ne_of_gt (naiveSample_den_pos n h2)
  · unfold naiveSample
    simp
  · unfold naiveSample
    exact div_self (ne_of_gt (naiveSample_den_pos n h2))
  · intro i j hij _
    exact naiveSample_lt n i j h2 hij
  · subst h1; rfl
  · subst h1; rfl
  · subst hn hmax
    unfold nIter
    have h1 : (1 : ℚ) ≤ 1 / toc_err := by
      rw [le_div_iff₀ hpos]
      linarith
    have h2 : (1 : ℤ) ≤ ⌈(1 : ℚ) / toc_err⌉ := by
      calc (1 : ℤ) = ⌈(1 : ℚ)⌉ := by norm_num
      _ ≤ ⌈(1 : ℚ) / toc_err⌉ := Int.ceil_le_ceil h1
    omega

/-- Claim C10, witness: `num_max_iterations = 3`, `toc_err = 1/2` give
`n_iter = 2`, with samples `0` and `1`; `num_max_iterations = 1`,
`toc_err = 1/2` give `n_iter = 1` with a zero denominator. -/
theorem claimC10_witness :
    (naiveSample 2 0 = 0 ∧ naiveSample 2 (2 - 1) = 1) ∧
    ((1 - 1 : ℕ) : ℚ) = 0 := by
  refine ⟨⟨?_, ?_⟩, ?_⟩
  · exact ((claimC10 3 (1/2) 2 (by norm_num [nIter]; rfl)).1 (by norm_num)).2.1
  · exact ((claimC10 3 (1/2) 2 (by norm_num [nIter]; rfl)).1 (by norm_num)).2.2.1
  · exact ((claimC10 1 (1/2) 1 (by norm_num [nIter])).2.1 rfl).1

/-! ### Claim C4 (naive sampling first-hit semantics) -/

theorem naiveLoop_eq_none {T : Type} (motion1 motion2 : ℚ → T)
    (collideAt : T → T → Bool) (n k : ℕ) :
    ∀ i, (∀ j, i ≤ j → j < i + k →
      collideAt (motion1 (naiveSample n j)) (motion2 (naiveSample n j)) = false) →
    naiveLoop motion1 motion2 collideAt n k i = none := by
  induction k with
  | zero => intro i _; rfl
  | succ k ih =>
    intro i h
    simp only [naiveLoop]
    rw [h i le_rfl (by omega)]
    simp only [Bool.false_eq_true, if_false]
    exact ih (i + 1) (fun j hj1 hj2 => h j (by omega) (by omega))

theorem naiveLoop_first_hit {T : Type} (motion1 motion2 : ℚ → T)
    (collideAt : T → T → Bool) (n k : ℕ) :
    ∀ i j, i ≤ j → j < i + k →
    collideAt (motion1 (naiveSample n j)) (motion2 (naiveSample n j)) = true →
    (∀ l, i ≤ l → l < j →
      collideAt (motion1 (naiveSample n l)) (motion2 (naiveSample n l)) = false) →
    naiveLoop motion1 motion2 collideAt n k i = some (naiveSample n j) := by
  induction k with
  | zero => intro i j h1 h2 _ _; omega
  | succ k ih =>
    intro i j h1 h2 hhit hmin
    by_cases hij : i = j
    · subst hij
      simp only [naiveLoop]
      rw [hhit]
      simp
    · simp only [naiveLoop]
      rw [hmin i le_rfl (by omega)]
      simp only [Bool.false_eq_true, if_false]
      exact ih (i + 1) j (by omega) (by omega) hhit
        (fun l hl1 hl2 => hmin l (by omega) hl2)

/-- Claim C4: `continuousCollideNaive` samples
`n = min(num_max_iterations, ⌈1/toc_err⌉)` times `t_i = i/(n-1)` in
increasing order (strictly increasing whenever `n ≥ 2`), integrating both
motions and running discrete collision at each; it returns the first `t_i`
reporting a hit, with `is_collide = true`, `time_of_contact = t_i` and the
two integrated transforms recorded, and on a miss returns `t = 1` with
`is_collide = false`. -/
theorem claimC4 {T : Type} (motion1 motion2 : ℚ → T) (collideAt : T → T → Bool)
    (request : CCRequest) (result : CCResult T) (n : ℕ)
    (hn : n = nIter request.num_max_iterations request.toc_err) :
    (∀ i0, i0 < n →
      collideAt (motion1 (naiveSample n i0)) (motion2 (naiveSample n i0)) = true →
      (∀ j, j < i0 →
        collideAt (motion1 (naiveSample n j)) (motion2 (naiveSample n j)) = false) →
      continuousCollideNaive motion1 motion2 collideAt request result =
        (naiveSample n i0,
          ⟨true, naiveSample n i0, motion1 (naiveSample n i0),
            motion2 (naiveSample n i0)⟩)) ∧
    ((∀ i, i < n →
        collideAt (motion1 (naiveSample n i)) (motion2 (naiveSample n i)) = false) →
      continuousCollideNaive motion1 motion2 collideAt request result =
        (1, { result with is_collide := false, time_of_contact := 1 })) ∧
    (2 ≤ n → ∀ i j, i < j → j < n → naiveSample n i < naiveSample n j) := by
  subst hn
  refine ⟨?_, ?_, ?_⟩
  · intro i0 h1 h2 h3
    simp only [continuousCollideNaive]
    rw [naiveLoop_first_hit motion1 motion2 collideAt _ _ 0 i0 (by omega)
      (by omega) h2 (fun l _ hl => h3 l hl)]
  · intro h
    simp only [continuousCollideNaive]
    rw [naiveLoop_eq_none motion1 motion2 collideAt _ _ 0
      (fun j _ hj => h j (by omega))]
  · intro h2 i j hij _
    exact naiveSample_lt _ i j h2 hij

/-- Claim C4, witness: a two-sample run that never reports a hit returns
`t = 1` with `is_collide = false`. -/
theorem claimC4_witness :
    continuousCollideNaive (fun t : ℚ => t) (fun t => t) (fun _ _ => false)
      ⟨CCDC_NAIVE, CCDM_TRANS, GST_LIBCCD, 2, 1/4⟩ ⟨false, 0, 0, 0⟩ =
      (1, ⟨false, 1, 0, 0⟩) :=
  (claimC4 (fun t : ℚ => t) (fun t => t) (fun _ _ => false)
      ⟨CCDC_NAIVE, CCDM_TRANS, GST_LIBCCD, 2, 1/4⟩ ⟨false, 0, 0, 0⟩ 2
      (by norm_num [nIter])).2.1 (fun i _ => rfl)

/-! ### Claim C2 (unregister / update of an unknown object) -/

/-- Claim C2, counterexample.  The claim asserts that `unregisterObject` on
an object that was never registered is a no-op.  On a manager holding one
object, unregistering the unknown handle `5` makes `table[obj]` hand a null
node pointer to `dtree.remove` — remove of a node not in the tree, a
programming error (modelled `none`), not the unchanged manager. -/
theorem claimC2_counterexample :
    unregisterObject
      ⟨some (.leaf 0 ⟨⟨0, 0, 0⟩, ⟨1, 1, 1⟩⟩ 1), [(1, some 0)], true, 10, 10⟩
      5 = none ∧
    unregisterObject
      ⟨some (.leaf 0 ⟨⟨0, 0, 0⟩, ⟨1, 1, 1⟩⟩ 1), [(1, some 0)], true, 10, 10⟩
      5 ≠
      some ⟨some (.leaf 0 ⟨⟨0, 0, 0⟩, ⟨1, 1, 1⟩⟩ 1), [(1, some 0)], true, 10, 10⟩ := by
  constructor
  · rfl
  · intro h
    exact Option.noConfusion h

/-- Claim C2, amended: `update_` on an object that was never registered
leaves the hierarchy tree and the object table unchanged (only the `setup_`
flag is cleared); `unregisterObject` on such an object is *not* a no-op — it
inserts and immediately erases a transient null table entry and then passes
the null node pointer to `dtree.remove`, a programming error (the spec
prescribes an assertion). -/
theorem claimC2 (htUpdate : Option ITree → ℕ → AABB → Option ITree)
    (m : Manager) (obj : ℕ) (objAabb : AABB)
    (h : tableFind m.table obj = none) :
    unregisterObject m obj = none ∧
    update_ htUpdate m obj objAabb = some { m with setup_ := false } := by
  constructor
  · simp [unregisterObject, tableBracket, h, htRemove]
  · simp [update_, h]

/-- Claim C2, witness: the amended theorem at a concrete one-object manager
and the unknown handle `5`. -/
theorem claimC2_witness :
    unregisterObject
      ⟨some (.leaf 0 ⟨⟨0, 0, 0⟩, ⟨1, 1, 1⟩⟩ 1), [(1, some 0)], true, 10, 10⟩
      5 = none ∧
    update_ (fun r _ _ => r)
      ⟨some (.leaf 0 ⟨⟨0, 0, 0⟩, ⟨1, 1, 1⟩⟩ 1), [(1, some 0)], true, 10, 10⟩
      5 ⟨⟨0, 0, 0⟩, ⟨1, 1, 1⟩⟩ =
      some ⟨some (.leaf 0 ⟨⟨0, 0, 0⟩, ⟨1, 1, 1⟩⟩ 1), [(1, some 0)], false, 10, 10⟩ :=
  claimC2 (fun r _ _ => r)
    ⟨some (.leaf 0 ⟨⟨0, 0, 0⟩, ⟨1, 1, 1⟩⟩ 1), [(1, some 0)], true, 10, 10⟩
    5 ⟨⟨0, 0, 0⟩, ⟨1, 1, 1⟩⟩ rfl

/-! ### Claim C3 (setup: idempotence and balance dispatch) -/

theorem setup_of_flag (balInc : Option ITree → ℕ → Option ITree)
    (balTop : Option ITree → Option ITree) (m : Manager)
    (h : m.setup_ = true) : setup balInc balTop m = m := by
  unfold setup
  rw [if_pos h]

theorem setup_flag_true (balInc : Option ITree → ℕ → Option ITree)
    (balTop : Option ITree → Option ITree) (m : Manager) :
    (setup balInc balTop m).setup_ = true := by
  by_cases h : m.setup_ = true
  · rw [setup_of_flag _ _ _ h]
    exact h
  · unfold setup
    rw [if_neg h]
    dsimp only
    split_ifs <;> rfl

/-- Claim C3: `setup()` is idempotent — a second call with no intervening
mutation changes nothing, and the dirty flag is cleared — and on a non-empty
dirty manager it delegates to incremental balancing with
`tree_incremental_balance_pass` passes when
`height - log₂(size) < max_tree_nonbalanced_level` (stated in the exact
equivalent form `setupBalanceCond`) and to a top-down rebuild otherwise. -/
theorem claimC3 (balInc : Option ITree → ℕ → Option ITree)
    (balTop : Option ITree → Option ITree) (m : Manager) :
    (setup balInc balTop (setup balInc balTop m) = setup balInc balTop m) ∧
    ((setup balInc balTop m).setup_ = true) ∧
    (m.setup_ = false → htSize m.dtreeRoot ≠ 0 →
      ((setupBalanceCond (htMaxHeight m.dtreeRoot) (htSize m.dtreeRoot)
          m.max_tree_nonbalanced_level = true →
        setup balInc balTop m =
          { m with
            dtreeRoot := balInc m.dtreeRoot m.tree_incremental_balance_pass,
            setup_ := true }) ∧
       (setupBalanceCond (htMaxHeight m.dtreeRoot) (htSize m.dtreeRoot)
          m.max_tree_nonbalanced_level = false →
        setup balInc balTop m =
          { m with dtreeRoot := balTop m.dtreeRoot, setup_ := true }))) := by
  refine ⟨setup_of_flag _ _ _ (setup_flag_true _ _ _),
    setup_flag_true _ _ _, fun h0 hnum => ⟨fun hc => ?_, fun hc => ?_⟩⟩
  · unfold setup
    rw [if_neg (by simp [h0]), if_neg hnum, if_pos hc]
  · unfold setup
    rw [if_neg (by simp [h0]), if_neg hnum, if_neg (by simp [hc])]

/-- Claim C3, witness: a dirty one-leaf manager (height 0, size 1, default
`max_tree_nonbalanced_level = 10`) satisfies the balance condition, so
`setup` routes to the incremental balancer and sets the flag. -/
theorem claimC3_witness :
    setup (fun r _ => r) (fun r => r)
      ⟨some (.leaf 0 ⟨⟨0, 0, 0⟩, ⟨1, 1, 1⟩⟩ 1), [(1, some 0)], false, 10, 10⟩ =
      ⟨some (.leaf 0 ⟨⟨0, 0, 0⟩, ⟨1, 1, 1⟩⟩ 1), [(1, some 0)], true, 10, 10⟩ :=
  ((claimC3 (fun r _ => r) (fun r => r)
      ⟨some (.leaf 0 ⟨⟨0, 0, 0⟩, ⟨1, 1, 1⟩⟩ 1), [(1, some 0)], false, 10, 10⟩).2.2
    rfl (by decide)).1 (by norm_num [setupBalanceCond, htMaxHeight, htSize, ITree.height, ITree.leafCount])

/-! ### Claim C7 (update of a registered object) -/

/-- Claim C7: for a registered object whose current AABB equals its leaf's
stored `bv`, `update_` leaves tree and table unchanged and only clears the
`setup_` flag; when the AABB differs, `dtree.update` is invoked with the new
AABB and the manager is marked dirty; the public `update(obj)` is
`update_` followed by `setup()` (run in both cases). -/
theorem claimC7 (htUpdate : Option ITree → ℕ → AABB → Option ITree)
    (balInc : Option ITree → ℕ → Option ITree)
    (balTop : Option ITree → Option ITree) (m : Manager) (obj nid : ℕ)
    (objAabb bv : AABB)
    (hfind : tableFind m.table obj = some (some nid))
    (hbv : m.dtreeRoot.bind (fun t => t.findLeafBv nid) = some bv) :
    (bv = objAabb →
      update_ htUpdate m obj objAabb = some { m with setup_ := false }) ∧
    (bv ≠ objAabb →
      update_ htUpdate m obj objAabb =
        some { m with dtreeRoot := htUpdate m.dtreeRoot nid objAabb,
                      setup_ := false }) ∧
    (updateObj htUpdate balInc balTop m obj objAabb =
      (update_ htUpdate m obj objAabb).map (setup balInc balTop)) := by
  refine ⟨fun he => ?_, fun hne => ?_, rfl⟩
  · simp only [update_, hfind, hbv]
    rw [if_pos he]
  · simp only [update_, hfind, hbv]
    rw [if_neg hne]

/-- Claim C7, witness: the two `update_` paths on a concrete one-object
manager — an unchanged AABB only clears the flag; a changed AABB routes the
new box into `dtree.update` (instantiated to visibly rewrite the root). -/
theorem claimC7_witness :
    update_ (fun r _ _ => r)
      ⟨some (.leaf 3 ⟨⟨0, 0, 0⟩, ⟨1, 1, 1⟩⟩ 7), [(7, some 3)], true, 10, 10⟩
      7 ⟨⟨0, 0, 0⟩, ⟨1, 1, 1⟩⟩ =
      some ⟨some (.leaf 3 ⟨⟨0, 0, 0⟩, ⟨1, 1, 1⟩⟩ 7), [(7, some 3)], false, 10, 10⟩ ∧
    update_ (fun _ _ _ => none)
      ⟨some (.leaf 3 ⟨⟨0, 0, 0⟩, ⟨1, 1, 1⟩⟩ 7), [(7, some 3)], true, 10, 10⟩
      7 ⟨⟨2, 0, 0⟩, ⟨3, 1, 1⟩⟩ =
      some ⟨none, [(7, some 3)], false, 10, 10⟩ := by
  constructor
  · exact (claimC7 (fun r _ _ => r) (fun r _ => r) (fun r => r)
      ⟨some (.leaf 3 ⟨⟨0, 0, 0⟩, ⟨1, 1, 1⟩⟩ 7), [(7, some 3)], true, 10, 10⟩
      7 3 ⟨⟨0, 0, 0⟩, ⟨1, 1, 1⟩⟩ ⟨⟨0, 0, 0⟩, ⟨1, 1, 1⟩⟩ rfl rfl).1 rfl
  · exact (claimC7 (fun _ _ _ => none) (fun r _ => r) (fun r => r)
      ⟨some (.leaf 3 ⟨⟨0, 0, 0⟩, ⟨1, 1, 1⟩⟩ 7), [(7, some 3)], true, 10, 10⟩
      7 3 ⟨⟨2, 0, 0⟩, ⟨3, 1, 1⟩⟩ ⟨⟨0, 0, 0⟩, ⟨1, 1, 1⟩⟩ rfl rfl).2.1 (by decide)

/-! ### Claim C9 (empty-input queries) -/

theorem ITree.leafCount_pos (t : ITree) : 0 < t.leafCount := by
  induction t with
  | leaf i bv o => simp [ITree.leafCount]
  | node i bv l r ihl ihr => simp only [ITree.leafCount]; omega

theorem htSize_eq_zero {r : Option ITree} (h : htSize r = 0) : r = none := by
  cases r with
  | none => rfl
  | some t =>
    exfalso
    have := ITree.leafCount_pos t
    simp only [htSize] at h
    omega

/-- Claim C9: every broad-phase query against an empty manager (and every
manager × manager query in which either manager is empty) returns
immediately without invoking any callback; distance queries leave `min_dist`
at its initial numeric maximum (`⊤`). -/
theorem claimC9 {T : Type} (m other : Manager) (queryAabb : AABB)
    (cbC : ℕ → Bool) (dq : AABB → ℚ) (cbD : ℕ → MinDist → Bool × MinDist)
    (cb2 : ℕ → ℕ → Bool) (dist : AABB → AABB → ℚ)
    (cbD2 : ℕ → ℕ → MinDist → Bool × MinDist)
    (info : OcTreeInfo) (obbOverlap : AABB → AABB → Bool) (objFree : ℕ → Bool)
    (tf2 : T) (cbO : ℕ → SynthBox T → Bool) (cbOv : ℕ → SynthBox Vec3 → Bool)
    (convertBVf : AABB → AABB)
    (cbOD : ℕ → SynthBox T → MinDist → Bool × MinDist)
    (cbODv : ℕ → SynthBox Vec3 → MinDist → Bool × MinDist)
    (translation2 : Vec3) (otRootO : Option OTNode) (otRoot : OTNode)
    (otRootBv : AABB) (hm : htSize m.dtreeRoot = 0) :
    managerCollideObj m queryAabb cbC = (false, []) ∧
    managerDistanceObj m dq cbD = (⊤, []) ∧
    managerSelfCollide m cb2 = (false, []) ∧
    managerSelfDistance m dist cbD2 = (⊤, []) ∧
    managerCollideMgr m other cb2 = (false, []) ∧
    managerCollideMgr other m cb2 = (false, []) ∧
    managerDistanceMgr m other dist cbD2 = (⊤, []) ∧
    managerDistanceMgr other m dist cbD2 = (⊤, []) ∧
    managerCollideOctreeRot m info obbOverlap objFree tf2 cbO otRootO otRootBv
      = (false, []) ∧
    managerCollideOctreeTrans m info objFree translation2 cbOv otRootO otRootBv
      = (false, []) ∧
    managerDistanceOctreeRot m convertBVf dist tf2 cbOD otRoot otRootBv
      = (⊤, []) ∧
    managerDistanceOctreeTrans m dist translation2 cbODv otRoot otRootBv
      = (⊤, []) := by
  have hroot : m.dtreeRoot = none := htSize_eq_zero hm
  refine ⟨?_, ?_, ?_, ?_, ?_, ?_, ?_, ?_, ?_, ?_, ?_, ?_⟩ <;>
    first
      | simp [managerCollideObj, managerDistanceObj, managerSelfCollide,
          managerSelfDistance, managerCollideOctreeRot,
          managerCollideOctreeTrans, managerDistanceOctreeRot,
          managerDistanceOctreeTrans, hroot]
      | (cases ho : other.dtreeRoot <;>
          simp [managerCollideMgr, managerDistanceMgr, hroot, ho])

/-- Claim C9, witness: all query entry points on concrete empty managers. -/
theorem claimC9_witness :
    managerCollideObj ⟨none, [], false, 10, 10⟩ ⟨⟨0, 0, 0⟩, ⟨1, 1, 1⟩⟩
      (fun _ => true) = (false, []) ∧
    managerDistanceObj ⟨none, [], false, 10, 10⟩ (fun _ => 0)
      (fun _ md => (false, md)) = (⊤, []) ∧
    managerCollideMgr
      ⟨some (.leaf 0 ⟨⟨0, 0, 0⟩, ⟨1, 1, 1⟩⟩ 1), [(1, some 0)], true, 10, 10⟩
      ⟨none, [], false, 10, 10⟩ (fun _ _ => true) = (false, []) := by
  have h := claimC9 (T := Unit)
    ⟨none, [], false, 10, 10⟩
    ⟨some (.leaf 0 ⟨⟨0, 0, 0⟩, ⟨1, 1, 1⟩⟩ 1), [(1, some 0)], true, 10, 10⟩
    ⟨⟨0, 0, 0⟩, ⟨1, 1, 1⟩⟩ (fun _ => true) (fun _ => 0)
    (fun _ md => (false, md)) (fun _ _ => true) (fun _ _ => 0)
    (fun _ _ md => (false, md)) ⟨1, 1⟩ (fun _ _ => true) (fun _ => false)
    () (fun _ _ => true) (fun _ _ => true) (fun a => a)
    (fun _ _ md => (false, md)) (fun _ _ md => (false, md)) ⟨0, 0, 0⟩
    none (.mk 1 false true []) ⟨⟨0, 0, 0⟩, ⟨1, 1, 1⟩⟩ rfl
  exact ⟨h.1, h.2.1, h.2.2.2.2.2.1⟩

/-! ### Claim C8 (octree traversal box synthesis) -/

/-- Claim C8, counterexample.  The claim asserts that for a null
(absent-child) octree node the synthesised box's cost density is the
octree's *default occupancy* on both transform paths.  On the
rotation-free translation fast path (line 323) the code instead assigns
`tree2->getOccupancyThres()`: with occupancy threshold `7/10` and default
occupancy `1/2`, the emitted box carries `7/10`. -/
theorem claimC8_counterexample :
    (octCollisionRecurseT ⟨7/10, 1/2⟩ (fun _ => false) ⟨0, 0, 0⟩
        (fun _ _ => false) (.leaf 0 ⟨⟨0, 0, 0⟩, ⟨1, 1, 1⟩⟩ 0) none
        ⟨⟨0, 0, 0⟩, ⟨1, 1, 1⟩⟩).2 =
      [(0, ⟨⟨⟨0, 0, 0⟩, ⟨1, 1, 1⟩⟩, ⟨0, 0, 0⟩, 7/10, 1⟩)] ∧
    (7 : ℚ)/10 ≠ (⟨7/10, 1/2⟩ : OcTreeInfo).defaultOccupancy := by
  constructor
  · norm_num [octCollisionRecurseT, AABB.overlap, AABB.translate, Vec3.add,
      defaultBoxThresholdOccupied]
  · norm_num

/-- Claim C8, amended: in node × octree collision traversal, on terminal
overlap the callback receives a transient `Box` synthesised from `root2_bv`
under the query transform whose `cost_density` equals the octree node's
occupancy and whose `threshold_occupied` equals the tree's occupancy
threshold, on both transform paths; for a null (absent-child) octree node
the synthesised box's cost density is the octree's default occupancy on the
general rotated path, but the tree's *occupancy threshold* on the
rotation-free translation fast path. -/
theorem claimC8 {T : Type} (info : OcTreeInfo)
    (obbOverlap : AABB → AABB → Bool) (objFree : ℕ → Bool) (tf2 : T)
    (cb : ℕ → SynthBox T → Bool) (cbv : ℕ → SynthBox Vec3 → Bool)
    (translation2 : Vec3) (i1 o1 : ℕ) (bv1 root2bv : AABB) (n : OTNode) :
    (objFree o1 = false → obbOverlap bv1 root2bv = true →
      octCollisionRecurseR info obbOverlap objFree tf2 cb
          (.leaf i1 bv1 o1) none root2bv =
        (cb o1 ⟨root2bv, tf2, info.defaultOccupancy, defaultBoxThresholdOccupied⟩,
         [(o1, ⟨root2bv, tf2, info.defaultOccupancy, defaultBoxThresholdOccupied⟩)])) ∧
    (n.hasChildren = false → n.free = false → objFree o1 = false →
      obbOverlap bv1 root2bv = true →
      octCollisionRecurseR info obbOverlap objFree tf2 cb
          (.leaf i1 bv1 o1) (some n) root2bv =
        (cb o1 ⟨root2bv, tf2, n.occ, info.occupancyThres⟩,
         [(o1, ⟨root2bv, tf2, n.occ, info.occupancyThres⟩)])) ∧
    (n.hasChildren = false → n.free = false → objFree o1 = false →
      bv1.overlap (root2bv.translate translation2) = true →
      octCollisionRecurseT info objFree translation2 cbv
          (.leaf i1 bv1 o1) (some n) root2bv =
        (cbv o1 ⟨root2bv, translation2, n.occ, info.occupancyThres⟩,
         [(o1, ⟨root2bv, translation2, n.occ, info.occupancyThres⟩)])) ∧
    (objFree o1 = false → bv1.overlap (root2bv.translate translation2) = true →
      octCollisionRecurseT info objFree translation2 cbv
          (.leaf i1 bv1 o1) none root2bv =
        (cbv o1 ⟨root2bv, translation2, info.occupancyThres,
            defaultBoxThresholdOccupied⟩,
         [(o1, ⟨root2bv, translation2, info.occupancyThres,
            defaultBoxThresholdOccupied⟩)])) := by
  refine ⟨fun h1 h2 => ?_, fun hc hf h1 h2 => ?_, fun hc hf h1 h2 => ?_,
    fun h1 h2 => ?_⟩
  · simp [octCollisionRecurseR, h1, h2]
  · simp [octCollisionRecurseR, hc, hf, h1, h2]
  · simp [octCollisionRecurseT, hc, hf, h1, h2]
  · simp [octCollisionRecurseT, h1, h2]

/-- Claim C8, witness: the rotated path with a null octree node emits the
default occupancy (`1/2`) as cost density. -/
theorem claimC8_witness :
    octCollisionRecurseR ⟨7/10, 1/2⟩ (fun _ _ => true) (fun _ => false) ()
      (fun _ _ => false) (.leaf 0 ⟨⟨0, 0, 0⟩, ⟨1, 1, 1⟩⟩ 0) none
      ⟨⟨0, 0, 0⟩, ⟨1, 1, 1⟩⟩ =
      (false, [(0, ⟨⟨⟨0, 0, 0⟩, ⟨1, 1, 1⟩⟩, (), 1/2, 1⟩)]) :=
  (claimC8 ⟨7/10, 1/2⟩ (fun _ _ => true) (fun _ => false) ()
    (fun _ _ => false) (fun _ _ => false) ⟨0, 0, 0⟩ 0 0
    ⟨⟨0, 0, 0⟩, ⟨1, 1, 1⟩⟩ ⟨⟨0, 0, 0⟩, ⟨1, 1, 1⟩⟩ (.mk 1 false true [])).1
    rfl rfl

/-! ### Claim C5 (node × query distance traversal) -/

theorem foldr_min_top_le {xs : List MinDist} {y : MinDist} (hy : y ∈ xs) :
    xs.foldr min ⊤ ≤ y := by
  induction xs with
  | nil => cases hy
  | cons a as ih =>
    rcases List.mem_cons.mp hy with h | h
    · subst h
      exact min_le_left _ _
    · exact le_trans (min_le_right _ _) (ih h)

theorem le_foldr_min_top {xs : List MinDist} {x : MinDist}
    (h : ∀ y ∈ xs, x ≤ y) : x ≤ xs.foldr min ⊤ := by
  induction xs with
  | nil => exact le_top
  | cons a as ih =>
    exact le_min (h a (List.mem_cons_self a as))
      (ih (fun y hy => h y (List.mem_cons_of_mem a hy)))

theorem treeDistMin_leaf (dObj : ℕ → ℚ) (i : ℕ) (bv : AABB) (o : ℕ) :
    treeDistMin dObj (.leaf i bv o) = ((dObj o : ℚ) : MinDist) := by
  simp [treeDistMin, ITree.leafObjs, ITree.leafRecords]

theorem foldr_min_foldr (xs ys : List MinDist) :
    xs.foldr min (ys.foldr min ⊤) = min (xs.foldr min ⊤) (ys.foldr min ⊤) := by
  induction xs with
  | nil =>
    simp only [List.foldr_nil]
    exact (min_eq_right le_top).symm
  | cons a as ih =>
    simp only [List.foldr_cons]
    rw [ih, min_assoc]

theorem treeDistMin_node (dObj : ℕ → ℚ) (i : ℕ) (bv : AABB) (l r : ITree) :
    treeDistMin dObj (.node i bv l r) =
      min (treeDistMin dObj l) (treeDistMin dObj r) := by
  unfold treeDistMin
  simp only [ITree.leafObjs, ITree.leafRecords, List.map_append,
    List.foldr_append]
  exact foldr_min_foldr _ _

theorem dqMonoOn_node {dq : AABB → ℚ} {i : ℕ} {bv : AABB} {l r : ITree}
    (h : dqMonoOn dq (.node i bv l r) = true) :
    dq bv ≤ dq l.bv ∧ dq bv ≤ dq r.bv ∧
    dqMonoOn dq l = true ∧ dqMonoOn dq r = true := by
  simp only [dqMonoOn, Bool.and_eq_true, decide_eq_true_eq] at h
  exact ⟨h.1.1.1, h.1.1.2, h.1.2, h.2⟩

theorem dq_le_leafRecords (dq : AABB → ℚ) (t : ITree)
    (h : dqMonoOn dq t = true) :
    ∀ p ∈ t.leafRecords, dq t.bv ≤ dq p.2 := by
  induction t with
  | leaf i bv o =>
    intro p hp
    simp only [ITree.leafRecords, List.mem_singleton] at hp
    subst hp
    exact le_refl _
  | node i bv l r ihl ihr =>
    intro p hp
    obtain ⟨h1, h2, h3, h4⟩ := dqMonoOn_node h
    simp only [ITree.leafRecords, List.mem_append] at hp
    rcases hp with hp | hp
    · exact le_trans h1 (ihl h3 p hp)
    · exact le_trans h2 (ihr h4 p hp)

theorem coe_dq_le_treeDistMin (dq : AABB → ℚ) (dObj : ℕ → ℚ) (t : ITree)
    (hmono : dqMonoOn dq t = true)
    (hhonest : ∀ p ∈ t.leafRecords, dq p.2 ≤ dObj p.1) :
    ((dq t.bv : ℚ) : MinDist) ≤ treeDistMin dObj t := by
  unfold treeDistMin
  apply le_foldr_min_top
  intro y hy
  simp only [ITree.leafObjs, List.map_map, List.mem_map] at hy
  obtain ⟨p, hp, rfl⟩ := hy
  exact WithTop.coe_le_coe.mpr
    (le_trans (dq_le_leafRecords dq t hmono p hp) (hhonest p hp))

/-- The core characterisation of `distanceRecurse(root, query, ...)` under an
honest non-aborting callback: the traversal never stops and the outgoing
`min_dist` is the incoming one lowered to the minimum callback distance over
the leaves — even though pruned subtrees never run their callbacks, the
pruning bound guarantees they cannot lower it. -/
theorem distanceRecurseQ_min (dObj : ℕ → ℚ) (dq : AABB → ℚ)
    (cb : ℕ → MinDist → Bool × MinDist)
    (hcb : ∀ o md, cb o md = (false, min md ((dObj o : ℚ) : MinDist)))
    (t : ITree) :
    ∀ md : MinDist, dqMonoOn dq t = true →
    (∀ p ∈ t.leafRecords, dq p.2 ≤ dObj p.1) →
    (distanceRecurseQ cb dq t md).1 = false ∧
    (distanceRecurseQ cb dq t md).2.1 = min md (treeDistMin dObj t) := by
  induction t with
  | leaf i bv o =>
    intro md _ _
    simp [distanceRecurseQ, hcb, treeDistMin_leaf]
  | node i bv l r ihl ihr =>
    intro md hmono hhonest
    obtain ⟨_, _, hml, hmr⟩ := dqMonoOn_node hmono
    have hhl : ∀ p ∈ l.leafRecords, dq p.2 ≤ dObj p.1 := fun p hp =>
      hhonest p (by simp [ITree.leafRecords, List.mem_append, hp])
    have hhr : ∀ p ∈ r.leafRecords, dq p.2 ≤ dObj p.1 := fun p hp =>
      hhonest p (by simp [ITree.leafRecords, List.mem_append, hp])
    have hd1tl : ((dq l.bv : ℚ) : MinDist) ≤ treeDistMin dObj l :=
      coe_dq_le_treeDistMin dq dObj l hml hhl
    have hd2tr : ((dq r.bv : ℚ) : MinDist) ≤ treeDistMin dObj r :=
      coe_dq_le_treeDistMin dq dObj r hmr hhr
    rw [treeDistMin_node]
    simp only [distanceRecurseQ]
    by_cases h21 : dq r.bv < dq l.bv
    · rw [if_pos h21]
      by_cases hg2 : ((dq r.bv : ℚ) : MinDist) < md
      · rw [if_pos hg2]
        rcases hres : distanceRecurseQ cb dq r md with ⟨s, md1, tr1⟩
        obtain ⟨hs, hmd1⟩ := ihr md hmr hhr
        rw [hres] at hs hmd1
        dsimp only at hs hmd1
        subst hs
        dsimp only
        by_cases hg1 : ((dq l.bv : ℚ) : MinDist) < md1
        · rw [if_pos hg1]
          rcases hres2 : distanceRecurseQ cb dq l md1 with ⟨s2, md2, tr2⟩
          obtain ⟨hs2, hmd2⟩ := ihl md1 hml hhl
          rw [hres2] at hs2 hmd2
          dsimp only at hs2 hmd2
          subst hs2
          refine ⟨rfl, ?_⟩
          dsimp only
          rw [hmd2, hmd1, min_assoc, min_comm (treeDistMin dObj r)]
        · rw [if_neg hg1]
          refine ⟨rfl, ?_⟩
          dsimp only
          -- the left child is pruned: md1 ≤ d1 ≤ treeDistMin l
          have hskip : md1 ≤ treeDistMin dObj l :=
            le_trans (not_lt.mp hg1) hd1tl
          rw [hmd1] at hskip ⊢
          rw [min_left_comm, min_eq_right hskip]
      · rw [if_neg hg2]
        have hmd2 : md ≤ treeDistMin dObj r :=
          le_trans (not_lt.mp hg2) hd2tr
        by_cases hg1 : ((dq l.bv : ℚ) : MinDist) < md
        · rw [if_pos hg1]
          obtain ⟨hs, hmd⟩ := ihl md hml hhl
          refine ⟨hs, ?_⟩
          rw [hmd, min_comm (treeDistMin dObj l), ← min_assoc,
            min_eq_left hmd2]
        · rw [if_neg hg1]
          refine ⟨rfl, ?_⟩
          have hmd1 : md ≤ treeDistMin dObj l :=
            le_trans (not_lt.mp hg1) hd1tl
          rw [min_eq_left (le_min hmd1 hmd2)]
    · rw [if_neg h21]
      by_cases hg1 : ((dq l.bv : ℚ) : MinDist) < md
      · rw [if_pos hg1]
        rcases hres : distanceRecurseQ cb dq l md with ⟨s, md1, tr1⟩
        obtain ⟨hs, hmd1⟩ := ihl md hml hhl
        rw [hres] at hs hmd1
        dsimp only at hs hmd1
        subst hs
        dsimp only
        by_cases hg2 : ((dq r.bv : ℚ) : MinDist) < md1
        · rw [if_pos hg2]
          rcases hres2 : distanceRecurseQ cb dq r md1 with ⟨s2, md2, tr2⟩
          obtain ⟨hs2, hmd2⟩ := ihr md1 hmr hhr
          rw [hres2] at hs2 hmd2
          dsimp only at hs2 hmd2
          subst hs2
          refine ⟨rfl, ?_⟩
          dsimp only
          rw [hmd2, hmd1, min_assoc]
        · rw [if_neg hg2]
          refine ⟨rfl, ?_⟩
          dsimp only
          have hskip : md1 ≤ treeDistMin dObj r :=
            le_trans (not_lt.mp hg2) hd2tr
          rw [hmd1] at hskip ⊢
          rw [← min_assoc, min_eq_left hskip]
      · rw [if_neg hg1]
        have hmdl : md ≤ treeDistMin dObj l :=
          le_trans (not_lt.mp hg1) hd1tl
        by_cases hg2 : ((dq r.bv : ℚ) : MinDist) < md
        · rw [if_pos hg2]
          obtain ⟨hs, hmd⟩ := ihr md hmr hhr
          refine ⟨hs, ?_⟩
          rw [hmd, ← min_assoc, min_eq_left hmdl]
        · rw [if_neg hg2]
          refine ⟨rfl, ?_⟩
          have hmdr : md ≤ treeDistMin dObj r :=
            le_trans (not_lt.mp hg2) hd2tr
          rw [min_eq_left (le_min hmdl hmdr)]

theorem distanceRecurseQ_no_stop (cb : ℕ → MinDist → Bool × MinDist)
    (dq : AABB → ℚ) (hcb : ∀ o md, (cb o md).1 = false) (t : ITree) :
    ∀ md : MinDist, (distanceRecurseQ cb dq t md).1 = false := by
  induction t with
  | leaf i bv o =>
    intro md
    have h := hcb o md
    rcases hc : cb o md with ⟨s, md'⟩
    rw [hc] at h
    dsimp only at h
    simp only [distanceRecurseQ, hc]
    exact h
  | node i bv l r ihl ihr =>
    intro md
    simp only [distanceRecurseQ]
    by_cases h21 : dq r.bv < dq l.bv
    · rw [if_pos h21]
      by_cases hg2 : ((dq r.bv : ℚ) : MinDist) < md
      · rw [if_pos hg2]
        rcases hres : distanceRecurseQ cb dq r md with ⟨s, md1, tr1⟩
        have hs := ihr md
        rw [hres] at hs
        dsimp only at hs
        subst hs
        dsimp only
        by_cases hg1 : ((dq l.bv : ℚ) : MinDist) < md1
        · rw [if_pos hg1]
          rcases hres2 : distanceRecurseQ cb dq l md1 with ⟨s2, md2, tr2⟩
          have hs2 := ihl md1
          rw [hres2] at hs2
          dsimp only at hs2
          subst hs2
          rfl
        · rw [if_neg hg1]
      · rw [if_neg hg2]
        by_cases hg1 : ((dq l.bv : ℚ) : MinDist) < md
        · rw [if_pos hg1]
          exact ihl md
        · rw [if_neg hg1]
    · rw [if_neg h21]
      by_cases hg1 : ((dq l.bv : ℚ) : MinDist) < md
      · rw [if_pos hg1]
        rcases hres : distanceRecurseQ cb dq l md with ⟨s, md1, tr1⟩
        have hs := ihl md
        rw [hres] at hs
        dsimp only at hs
        subst hs
        dsimp only
        by_cases hg2 : ((dq r.bv : ℚ) : MinDist) < md1
        · rw [if_pos hg2]
          rcases hres2 : distanceRecurseQ cb dq r md1 with ⟨s2, md2, tr2⟩
          have hs2 := ihr md1
          rw [hres2] at hs2
          dsimp only at hs2
          subst hs2
          rfl
        · rw [if_neg hg2]
      · rw [if_neg hg1]
        by_cases hg2 : ((dq r.bv : ℚ) : MinDist) < md
        · rw [if_pos hg2]
          exact ihr md
        · rw [if_neg hg2]

/-- The single-step shape of `distanceRecurse(root, query, ...)` at an
internal node, for a never-aborting callback: the child with the smaller
AABB distance contributes its invocations first, and either child is
recursed into only under the guard `d < min_dist`, the second child's guard
re-reading the `min_dist` produced by the first. -/
theorem distanceRecurseQ_node_eq (cb : ℕ → MinDist → Bool × MinDist)
    (dq : AABB → ℚ)
    (hstop : ∀ (t : ITree) (md : MinDist),
      (distanceRecurseQ cb dq t md).1 = false)
    (i : ℕ) (bv : AABB) (l r : ITree) (md : MinDist) :
    (dq r.bv < dq l.bv →
      distanceRecurseQ cb dq (.node i bv l r) md =
        (let first := if ((dq r.bv : ℚ) : MinDist) < md
            then distanceRecurseQ cb dq r md else (false, md, ([] : List ℕ))
         let second := if ((dq l.bv : ℚ) : MinDist) < first.2.1
            then distanceRecurseQ cb dq l first.2.1
            else (false, first.2.1, ([] : List ℕ))
         (false, second.2.1, first.2.2 ++ second.2.2))) ∧
    (¬ dq r.bv < dq l.bv →
      distanceRecurseQ cb dq (.node i bv l r) md =
        (let first := if ((dq l.bv : ℚ) : MinDist) < md
            then distanceRecurseQ cb dq l md else (false, md, ([] : List ℕ))
         let second := if ((dq r.bv : ℚ) : MinDist) < first.2.1
            then distanceRecurseQ cb dq r first.2.1
            else (false, first.2.1, ([] : List ℕ))
         (false, second.2.1, first.2.2 ++ second.2.2))) := by
  constructor
  · intro hlt
    simp only [distanceRecurseQ]
    rw [if_pos hlt]
    by_cases hg2 : ((dq r.bv : ℚ) : MinDist) < md
    · rcases hres : distanceRecurseQ cb dq r md with ⟨s, md1, tr1⟩
      have hs := hstop r md
      rw [hres] at hs
      dsimp only at hs
      subst hs
      by_cases hg1 : ((dq l.bv : ℚ) : MinDist) < md1
      · rcases hres2 : distanceRecurseQ cb dq l md1 with ⟨s2, md2, tr2⟩
        have hs2 := hstop l md1
        rw [hres2] at hs2
        dsimp only at hs2
        subst hs2
        simp [if_pos hg2, if_pos hg1, hres, hres2]
      · simp [if_pos hg2, if_neg hg1, hres]
    · by_cases hg1 : ((dq l.bv : ℚ) : MinDist) < md
      · rcases hres : distanceRecurseQ cb dq l md with ⟨s, md1, tr1⟩
        have hs := hstop l md
        rw [hres] at hs
        dsimp only at hs
        subst hs
        simp [if_neg hg2, if_pos hg1, hres]
      · simp [if_neg hg2, if_neg hg1]
  · intro hge
    simp only [distanceRecurseQ]
    rw [if_neg hge]
    by_cases hg1 : ((dq l.bv : ℚ) : MinDist) < md
    · rcases hres : distanceRecurseQ cb dq l md with ⟨s, md1, tr1⟩
      have hs := hstop l md
      rw [hres] at hs
      dsimp only at hs
      subst hs
      by_cases hg2 : ((dq r.bv : ℚ) : MinDist) < md1
      · rcases hres2 : distanceRecurseQ cb dq r md1 with ⟨s2, md2, tr2⟩
        have hs2 := hstop r md1
        rw [hres2] at hs2
        dsimp only at hs2
        subst hs2
        simp [if_pos hg1, if_pos hg2, hres, hres2]
      · simp [if_pos hg1, if_neg hg2, hres]
    · by_cases hg2 : ((dq r.bv : ℚ) : MinDist) < md
      · rcases hres : distanceRecurseQ cb dq r md with ⟨s, md1, tr1⟩
        have hs := hstop r md
        rw [hres] at hs
        dsimp only at hs
        subst hs
        simp [if_neg hg1, if_pos hg2, hres]
      · simp [if_neg hg1, if_neg hg2]

theorem treeDistMin_le (dObj : ℕ → ℚ) (t : ITree) {p : ℕ × AABB}
    (hp : p ∈ t.leafRecords) :
    treeDistMin dObj t ≤ ((dObj p.1 : ℚ) : MinDist) := by
  unfold treeDistMin
  apply foldr_min_top_le
  simp only [ITree.leafObjs, List.map_map, List.mem_map]
  exact ⟨p, hp, rfl⟩

/-- Claim C5: for a distance query of one object against a non-empty
manager, the traversal visits at each internal node the child with the
smaller AABB lower-bound distance first, never recurses into a child whose
AABB distance is `≥` the current `min_dist` (conjunct 1, the node-shape
equation), and — for a callback that honestly lowers `min_dist` to object
distances that dominate the AABB lower bounds — the terminal `min_dist` is
`≤ d(q, x)` for every registered object `x` (conjunct 2) with equality on
the nearest pair (conjunct 3: it equals the minimum object distance). -/
theorem claimC5 (m : Manager) (t : ITree) (dq : AABB → ℚ) (dObj : ℕ → ℚ)
    (cb : ℕ → MinDist → Bool × MinDist)
    (hroot : m.dtreeRoot = some t)
    (hcb : ∀ o md, cb o md = (false, min md ((dObj o : ℚ) : MinDist)))
    (hmono : dqMonoOn dq t = true)
    (hhonest : ∀ p ∈ t.leafRecords, dq p.2 ≤ dObj p.1) :
    (∀ (i : ℕ) (bv : AABB) (l r : ITree) (md : MinDist),
      (dq r.bv < dq l.bv →
        distanceRecurseQ cb dq (.node i bv l r) md =
          (let first := if ((dq r.bv : ℚ) : MinDist) < md
              then distanceRecurseQ cb dq r md else (false, md, ([] : List ℕ))
           let second := if ((dq l.bv : ℚ) : MinDist) < first.2.1
              then distanceRecurseQ cb dq l first.2.1
              else (false, first.2.1, ([] : List ℕ))
           (false, second.2.1, first.2.2 ++ second.2.2))) ∧
      (¬ dq r.bv < dq l.bv →
        distanceRecurseQ cb dq (.node i bv l r) md =
          (let first := if ((dq l.bv : ℚ) : MinDist) < md
              then distanceRecurseQ cb dq l md else (false, md, ([] : List ℕ))
           let second := if ((dq r.bv : ℚ) : MinDist) < first.2.1
              then distanceRecurseQ cb dq r first.2.1
              else (false, first.2.1, ([] : List ℕ))
           (false, second.2.1, first.2.2 ++ second.2.2)))) ∧
    (∀ p ∈ t.leafRecords,
      (managerDistanceObj m dq cb).1 ≤ ((dObj p.1 : ℚ) : MinDist)) ∧
    (managerDistanceObj m dq cb).1 = treeDistMin dObj t := by
  have hstop : ∀ (t' : ITree) (md : MinDist),
      (distanceRecurseQ cb dq t' md).1 = false :=
    fun t' md => distanceRecurseQ_no_stop cb dq (fun o md' => by rw [hcb]) t' md
  have hmin := distanceRecurseQ_min dObj dq cb hcb t ⊤ hmono hhonest
  have hmgr : (managerDistanceObj m dq cb).1 = treeDistMin dObj t := by
    simp only [managerDistanceObj, hroot]
    rcases hres : distanceRecurseQ cb dq t ⊤ with ⟨s, md, tr⟩
    have h2 := hmin.2
    rw [hres] at h2
    dsimp only at h2 ⊢
    rw [h2, min_eq_right le_top]
  refine ⟨fun i bv l r md => distanceRecurseQ_node_eq cb dq hstop i bv l r md,
    fun p hp => ?_, hmgr⟩
  rw [hmgr]
  exact treeDistMin_le dObj t hp

/-- Claim C5, witness: a two-leaf manager (boxes starting at `x = 0` and
`x = 3`), the query distance taken as the box's low `x` corner and honest
object distances `1` and `5`; the query returns the minimum object
distance. -/
theorem claimC5_witness :
    (managerDistanceObj
        ⟨some (.node 0 ⟨⟨0, 0, 0⟩, ⟨4, 1, 1⟩⟩
            (.leaf 1 ⟨⟨0, 0, 0⟩, ⟨1, 1, 1⟩⟩ 1)
            (.leaf 2 ⟨⟨3, 0, 0⟩, ⟨4, 1, 1⟩⟩ 2)),
          [(1, some 1), (2, some 2)], true, 10, 10⟩
        (fun bv => bv.lo.x)
        (fun o md =>
          (false, min md ((((if o = 1 then (1 : ℚ) else 5)) : ℚ) : MinDist)))).1 =
      treeDistMin (fun o => if o = 1 then (1 : ℚ) else 5)
        (.node 0 ⟨⟨0, 0, 0⟩, ⟨4, 1, 1⟩⟩ (.leaf 1 ⟨⟨0, 0, 0⟩, ⟨1, 1, 1⟩⟩ 1)
          (.leaf 2 ⟨⟨3, 0, 0⟩, ⟨4, 1, 1⟩⟩ 2)) :=
  (claimC5
    ⟨some (.node 0 ⟨⟨0, 0, 0⟩, ⟨4, 1, 1⟩⟩
        (.leaf 1 ⟨⟨0, 0, 0⟩, ⟨1, 1, 1⟩⟩ 1)
        (.leaf 2 ⟨⟨3, 0, 0⟩, ⟨4, 1, 1⟩⟩ 2)),
      [(1, some 1), (2, some 2)], true, 10, 10⟩
    (.node 0 ⟨⟨0, 0, 0⟩, ⟨4, 1, 1⟩⟩ (.leaf 1 ⟨⟨0, 0, 0⟩, ⟨1, 1, 1⟩⟩ 1)
      (.leaf 2 ⟨⟨3, 0, 0⟩, ⟨4, 1, 1⟩⟩ 2))
    (fun bv => bv.lo.x) (fun o => if o = 1 then (1 : ℚ) else 5)
    (fun o md =>
      (false, min md ((((if o = 1 then (1 : ℚ) else 5)) : ℚ) : MinDist)))
    rfl (fun o md => rfl) (by decide)
    (by
      intro p hp
      simp only [ITree.leafRecords, List.mem_append,
        List.mem_singleton] at hp
      rcases hp with hp | hp <;> subst hp <;> norm_num)).2.2

/-! ### Claim C6 (self-collision visits each overlapping pair exactly once) -/

theorem AABB.containsBox_refl (a : AABB) : a.containsBox a = true := by
  simp [AABB.containsBox]

theorem AABB.containsBox_trans {a b c : AABB} (h1 : a.containsBox b = true)
    (h2 : b.containsBox c = true) : a.containsBox c = true := by
  simp only [AABB.containsBox, Bool.and_eq_true, decide_eq_true_eq] at *
  obtain ⟨⟨⟨⟨⟨p1, p2⟩, p3⟩, p4⟩, p5⟩, p6⟩ := h1
  obtain ⟨⟨⟨⟨⟨q1, q2⟩, q3⟩, q4⟩, q5⟩, q6⟩ := h2
  refine ⟨⟨⟨⟨⟨?_, ?_⟩, ?_⟩, ?_⟩, ?_⟩, ?_⟩ <;> linarith

theorem AABB.overlap_symm {a b : AABB} (h : a.overlap b = true) :
    b.overlap a = true := by
  simp only [AABB.overlap, Bool.and_eq_true, decide_eq_true_eq] at *
  obtain ⟨⟨⟨⟨⟨p1, p2⟩, p3⟩, p4⟩, p5⟩, p6⟩ := h
  refine ⟨⟨⟨⟨⟨?_, ?_⟩, ?_⟩, ?_⟩, ?_⟩, ?_⟩ <;> linarith

/-- Overlap is monotone in the second box under containment. -/
theorem AABB.overlap_of_containsBox_right {q c p : AABB}
    (hc : p.containsBox c = true) (ho : q.overlap c = true) :
    q.overlap p = true := by
  simp only [AABB.containsBox, AABB.overlap, Bool.and_eq_true,
    decide_eq_true_eq] at *
  obtain ⟨⟨⟨⟨⟨p1, p2⟩, p3⟩, p4⟩, p5⟩, p6⟩ := hc
  obtain ⟨⟨⟨⟨⟨q1, q2⟩, q3⟩, q4⟩, q5⟩, q6⟩ := ho
  refine ⟨⟨⟨⟨⟨?_, ?_⟩, ?_⟩, ?_⟩, ?_⟩, ?_⟩ <;> linarith

/-- Overlap is monotone in the first box under containment. -/
theorem AABB.overlap_of_containsBox_left {q c p : AABB}
    (hc : p.containsBox c = true) (ho : c.overlap q = true) :
    p.overlap q = true := by
  simp only [AABB.containsBox, AABB.overlap, Bool.and_eq_true,
    decide_eq_true_eq] at *
  obtain ⟨⟨⟨⟨⟨p1, p2⟩, p3⟩, p4⟩, p5⟩, p6⟩ := hc
  obtain ⟨⟨⟨⟨⟨q1, q2⟩, q3⟩, q4⟩, q5⟩, q6⟩ := ho
  refine ⟨⟨⟨⟨⟨?_, ?_⟩, ?_⟩, ?_⟩, ?_⟩, ?_⟩ <;> linarith

theorem containmentInv_node {i : ℕ} {bv : AABB} {l r : ITree}
    (h : (ITree.node i bv l r).containmentInv = true) :
    bv.containsBox l.bv = true ∧ bv.containsBox r.bv = true ∧
    l.containmentInv = true ∧ r.containmentInv = true := by
  simp only [ITree.containmentInv, Bool.and_eq_true] at h
  exact ⟨h.1.1.1, h.1.1.2, h.1.2, h.2⟩

theorem leafRecords_containsBox (t : ITree) (hinv : t.containmentInv = true) :
    ∀ p ∈ t.leafRecords, t.bv.containsBox p.2 = true := by
  induction t with
  | leaf i bv o =>
    intro p hp
    simp only [ITree.leafRecords, List.mem_singleton] at hp
    subst hp
    exact AABB.containsBox_refl bv
  | node i bv l r ihl ihr =>
    intro p hp
    obtain ⟨hcl, hcr, hil, hir⟩ := containmentInv_node hinv
    simp only [ITree.leafRecords, List.mem_append] at hp
    rcases hp with hp | hp
    · exact AABB.containsBox_trans hcl (ihl hil p hp)
    · exact AABB.containsBox_trans hcr (ihr hir p hp)

theorem leafObjs_node (i : ℕ) (bv : AABB) (l r : ITree) :
    (ITree.node i bv l r).leafObjs = l.leafObjs ++ r.leafObjs := by
  simp [ITree.leafObjs, ITree.leafRecords]

theorem collidePairsRef_node_left (i : ℕ) (bv : AABB) (l r t2 : ITree) :
    collidePairsRef (.node i bv l r) t2 =
      collidePairsRef l t2 ++ collidePairsRef r t2 := by
  simp [collidePairsRef, ITree.leafRecords]

theorem collidePairsRef_node_right (t1 : ITree) (i : ℕ) (bv : AABB)
    (l r : ITree) :
    (collidePairsRef t1 (.node i bv l r)).Perm
      (collidePairsRef t1 l ++ collidePairsRef t1 r) := by
  unfold collidePairsRef
  simp only [ITree.leafRecords, List.filterMap_append]
  exact (List.flatMap_append_perm _ _ _).symm

theorem mem_collidePairsRef {t1 t2 : ITree} {x y : ℕ} :
    (x, y) ∈ collidePairsRef t1 t2 ↔
      ∃ p q, p ∈ t1.leafRecords ∧ q ∈ t2.leafRecords ∧ p.1 = x ∧ q.1 = y ∧
        p.2.overlap q.2 = true := by
  unfold collidePairsRef
  simp only [List.mem_flatMap, List.mem_filterMap]
  constructor
  · rintro ⟨p, hp, q, hq, hz⟩
    by_cases hov : p.2.overlap q.2 = true
    · rw [if_pos hov] at hz
      have hz' := Prod.ext_iff.mp (Option.some.inj hz)
      exact ⟨p, q, hp, hq, hz'.1, hz'.2, hov⟩
    · rw [if_neg hov] at hz
      exact absurd hz (Option.noConfusion)
  · rintro ⟨p, q, hp, hq, rfl, rfl, hov⟩
    exact ⟨p, hp, q, hq, by rw [if_pos hov]⟩

theorem collidePairsRef_fst {t1 t2 : ITree} {x y : ℕ}
    (h : (x, y) ∈ collidePairsRef t1 t2) :
    x ∈ t1.leafObjs ∧ y ∈ t2.leafObjs := by
  obtain ⟨p, q, hp, hq, rfl, rfl, _⟩ := mem_collidePairsRef.mp h
  exact ⟨List.mem_map_of_mem Prod.fst hp, List.mem_map_of_mem Prod.fst hq⟩

theorem collidePairsRef_nil (t1 t2 : ITree) (hinv1 : t1.containmentInv = true)
    (hinv2 : t2.containmentInv = true)
    (hno : ¬ t1.bv.overlap t2.bv = true) : collidePairsRef t1 t2 = [] := by
  apply List.eq_nil_iff_forall_not_mem.mpr
  rintro ⟨x, y⟩ hmem
  obtain ⟨p, q, hp, hq, _, _, hov⟩ := mem_collidePairsRef.mp hmem
  exact hno (AABB.overlap_of_containsBox_left
    (leafRecords_containsBox t1 hinv1 p hp)
    (AABB.overlap_of_containsBox_right
      (leafRecords_containsBox t2 hinv2 q hq) hov))

theorem nodup_leafPairs (o1 : ℕ) (bv1 : AABB) (recs : List (ℕ × AABB))
    (nd : (recs.map Prod.fst).Nodup) :
    (recs.filterMap fun b =>
      if bv1.overlap b.2 then some (o1, b.1) else none).Nodup := by
  induction recs with
  | nil => simp
  | cons b rest ih =>
    simp only [List.map_cons, List.nodup_cons] at nd
    obtain ⟨hb, nd'⟩ := nd
    simp only [List.filterMap_cons]
    by_cases hov : bv1.overlap b.2 = true
    · rw [if_pos hov]
      refine List.nodup_cons.mpr ⟨?_, ih nd'⟩
      intro hmem
      obtain ⟨c, hc, hz⟩ := List.mem_filterMap.mp hmem
      by_cases hov2 : bv1.overlap c.2 = true
      · rw [if_pos hov2] at hz
        have hcb : c.1 = b.1 := congrArg Prod.snd (Option.some.inj hz)
        exact hb (hcb ▸ List.mem_map_of_mem Prod.fst hc)
      · rw [if_neg hov2] at hz
        exact Option.noConfusion hz
    · rw [if_neg hov]
      exact ih nd'

theorem nodup_collidePairsRef (t1 t2 : ITree) (nd1 : t1.leafObjs.Nodup)
    (nd2 : t2.leafObjs.Nodup) : (collidePairsRef t1 t2).Nodup := by
  induction t1 with
  | leaf i bv o =>
    unfold collidePairsRef
    simp only [ITree.leafRecords, List.flatMap_cons, List.flatMap_nil,
      List.append_nil]
    exact nodup_leafPairs o bv t2.leafRecords nd2
  | node i bv l r ihl ihr =>
    rw [leafObjs_node] at nd1
    obtain ⟨ndl, ndr, disj⟩ := List.nodup_append.mp nd1
    rw [collidePairsRef_node_left]
    refine List.Nodup.append (ihl ndl) (ihr ndr) ?_
    rintro ⟨x, y⟩ hxl hxr
    exact disj (collidePairsRef_fst hxl).1 (collidePairsRef_fst hxr).1

theorem mem_selfPairsRef_objs {t : ITree} {x y : ℕ}
    (h : (x, y) ∈ selfPairsRef t) : x ∈ t.leafObjs ∧ y ∈ t.leafObjs := by
  induction t with
  | leaf i bv o => simp [selfPairsRef] at h
  | node i bv l r ihl ihr =>
    rw [leafObjs_node]
    simp only [selfPairsRef, List.mem_append] at h
    rcases h with (h | h) | h
    · exact ⟨List.mem_append_left _ (ihl h).1, List.mem_append_left _ (ihl h).2⟩
    · exact ⟨List.mem_append_right _ (ihr h).1,
        List.mem_append_right _ (ihr h).2⟩
    · exact ⟨List.mem_append_left _ (collidePairsRef_fst h).1,
        List.mem_append_right _ (collidePairsRef_fst h).2⟩

theorem nodup_selfPairsRef (t : ITree) (nd : t.leafObjs.Nodup) :
    (selfPairsRef t).Nodup := by
  induction t with
  | leaf i bv o => simp [selfPairsRef]
  | node i bv l r ihl ihr =>
    rw [leafObjs_node] at nd
    obtain ⟨ndl, ndr, disj⟩ := List.nodup_append.mp nd
    simp only [selfPairsRef]
    refine List.Nodup.append (List.Nodup.append (ihl ndl) (ihr ndr) ?_) ?_ ?_
    · rintro ⟨x, y⟩ hl hr
      exact disj (mem_selfPairsRef_objs hl).1 (mem_selfPairsRef_objs hr).1
    · exact nodup_collidePairsRef l r ndl ndr
    · rintro ⟨x, y⟩ hs hc
      rcases List.mem_append.mp hs with hs | hs
      · exact disj (mem_selfPairsRef_objs hs).2 (collidePairsRef_fst hc).2
      · exact disj (collidePairsRef_fst hc).1 (mem_selfPairsRef_objs hs).1

theorem selfPairsRef_asymm (t : ITree) (nd : t.leafObjs.Nodup) {x y : ℕ}
    (h : (x, y) ∈ selfPairsRef t) : (y, x) ∉ selfPairsRef t := by
  induction t with
  | leaf i bv o => simp [selfPairsRef] at h
  | node i bv l r ihl ihr =>
    rw [leafObjs_node] at nd
    obtain ⟨ndl, ndr, disj⟩ := List.nodup_append.mp nd
    simp only [selfPairsRef, List.mem_append] at h ⊢
    push_neg
    rcases h with (h | h) | h
    · exact ⟨⟨ihl ndl h,
        fun hr => disj (mem_selfPairsRef_objs h).2 (mem_selfPairsRef_objs hr).1⟩,
        fun hc => disj (mem_selfPairsRef_objs h).1 (collidePairsRef_fst hc).2⟩
    · exact ⟨⟨fun hl => disj (mem_selfPairsRef_objs hl).1 (mem_selfPairsRef_objs h).2,
        ihr ndr h⟩,
        fun hc => disj (collidePairsRef_fst hc).1 (mem_selfPairsRef_objs h).2⟩
    · exact ⟨⟨fun hl => disj (mem_selfPairsRef_objs hl).1 (collidePairsRef_fst h).2,
        fun hr => disj (collidePairsRef_fst h).1 (mem_selfPairsRef_objs hr).2⟩,
        fun hc => disj (collidePairsRef_fst hc).1 (collidePairsRef_fst h).2⟩

theorem selfPairsRef_complete (t : ITree) {a b : ℕ} {abv bbv : AABB}
    (ha : (a, abv) ∈ t.leafRecords) (hb : (b, bbv) ∈ t.leafRecords)
    (hne : a ≠ b) (hov : abv.overlap bbv = true) :
    (a, b) ∈ selfPairsRef t ∨ (b, a) ∈ selfPairsRef t := by
  induction t with
  | leaf i bv o =>
    simp only [ITree.leafRecords, List.mem_singleton, Prod.mk.injEq] at ha hb
    exact absurd (ha.1.trans hb.1.symm) hne
  | node i bv l r ihl ihr =>
    simp only [ITree.leafRecords, List.mem_append] at ha hb
    simp only [selfPairsRef, List.mem_append]
    rcases ha with ha | ha <;> rcases hb with hb | hb
    · rcases ihl ha hb with h | h
      · exact Or.inl (Or.inl (Or.inl h))
      · exact Or.inr (Or.inl (Or.inl h))
    · exact Or.inl (Or.inr (mem_collidePairsRef.mpr
        ⟨(a, abv), (b, bbv), ha, hb, rfl, rfl, hov⟩))
    · exact Or.inr (Or.inr (mem_collidePairsRef.mpr
        ⟨(b, bbv), (a, abv), hb, ha, rfl, rfl, AABB.overlap_symm hov⟩))
    · rcases ihr ha hb with h | h
      · exact Or.inl (Or.inl (Or.inr h))
      · exact Or.inr (Or.inl (Or.inr h))

theorem mem_selfPairsRef (t : ITree) (nd : t.leafObjs.Nodup) {x y : ℕ}
    (h : (x, y) ∈ selfPairsRef t) :
    x ≠ y ∧ ∃ p q, p ∈ t.leafRecords ∧ q ∈ t.leafRecords ∧ p.1 = x ∧
      q.1 = y ∧ p.2.overlap q.2 = true := by
  induction t with
  | leaf i bv o => simp [selfPairsRef] at h
  | node i bv l r ihl ihr =>
    rw [leafObjs_node] at nd
    obtain ⟨ndl, ndr, disj⟩ := List.nodup_append.mp nd
    simp only [selfPairsRef, List.mem_append] at h
    rcases h with (h | h) | h
    · obtain ⟨hne, p, q, hp, hq, h1, h2, h3⟩ := ihl ndl h
      exact ⟨hne, p, q, by simp [ITree.leafRecords, hp],
        by simp [ITree.leafRecords, hq], h1, h2, h3⟩
    · obtain ⟨hne, p, q, hp, hq, h1, h2, h3⟩ := ihr ndr h
      exact ⟨hne, p, q, by simp [ITree.leafRecords, hp],
        by simp [ITree.leafRecords, hq], h1, h2, h3⟩
    · obtain ⟨p, q, hp, hq, h1, h2, h3⟩ := mem_collidePairsRef.mp h
      refine ⟨?_, p, q, by simp [ITree.leafRecords, hp],
        by simp [ITree.leafRecords, hq], h1, h2, h3⟩
      intro hxy
      subst hxy
      exact disj (h1 ▸ List.mem_map_of_mem Prod.fst hp)
        (h2 ▸ List.mem_map_of_mem Prod.fst hq)

set_option maxHeartbeats 1600000 in
/-- The core characterisation of `collisionRecurse(root1, root2, ...)` under
a never-aborting callback and the containment invariant: the walk never
stops, and the invoked pairs are a permutation of all overlapping leaf pairs
of `t1 × t2` — the overlap prune can never hide an overlapping leaf pair,
and the descent partitions the pairs without repetition. -/
theorem collisionRecurse2_spec (cb : ℕ → ℕ → Bool)
    (hcb : ∀ a b, cb a b = false) :
    ∀ t1, t1.containmentInv = true → ∀ t2, t2.containmentInv = true →
      (collisionRecurse2 cb t1 t2).1 = false ∧
      (collisionRecurse2 cb t1 t2).2.Perm (collidePairsRef t1 t2) := by
  intro t1
  induction t1 with
  | leaf i1 bv1 o1 =>
    intro _ t2
    induction t2 with
    | leaf i2 bv2 o2 =>
      intro _
      simp only [collisionRecurse2]
      by_cases hov : bv1.overlap bv2 = true
      · rw [if_neg (not_not_intro hov)]
        refine ⟨hcb o1 o2, ?_⟩
        simp [collidePairsRef, ITree.leafRecords, hov]
      · rw [if_pos hov]
        refine ⟨rfl, ?_⟩
        simp [collidePairsRef, ITree.leafRecords, hov]
    | node i2 bv2 l2 r2 ih2l ih2r =>
      intro hinv2
      obtain ⟨hc2l, hc2r, hinv2l, hinv2r⟩ := containmentInv_node hinv2
      simp only [collisionRecurse2]
      by_cases hov : bv1.overlap bv2 = true
      · rw [if_neg (not_not_intro hov)]
        obtain ⟨hf1, hp1⟩ := ih2l hinv2l
        obtain ⟨hf2, hp2⟩ := ih2r hinv2r
        rcases hres1 : collisionRecurse2 cb (.leaf i1 bv1 o1) l2 with ⟨s1, tr1⟩
        rw [hres1] at hf1 hp1
        dsimp only at hf1 hp1
        subst hf1
        rcases hres2 : collisionRecurse2 cb (.leaf i1 bv1 o1) r2 with ⟨s2, tr2⟩
        rw [hres2] at hf2 hp2
        dsimp only at hf2 hp2
        subst hf2
        exact ⟨rfl, (hp1.append hp2).trans
          (collidePairsRef_node_right _ i2 bv2 l2 r2).symm⟩
      · rw [if_pos hov]
        refine ⟨rfl, ?_⟩
        rw [collidePairsRef_nil (.leaf i1 bv1 o1) (.node i2 bv2 l2 r2) rfl
          hinv2 hov]
  | node i1 bv1 l1 r1 ih1l ih1r =>
    intro hinv1 t2
    obtain ⟨hc1l, hc1r, hinv1l, hinv1r⟩ := containmentInv_node hinv1
    induction t2 with
    | leaf i2 bv2 o2 =>
      intro _
      simp only [collisionRecurse2]
      by_cases hov : bv1.overlap bv2 = true
      · rw [if_neg (not_not_intro hov)]
        obtain ⟨hf1, hp1⟩ := ih1l hinv1l (.leaf i2 bv2 o2) rfl
        obtain ⟨hf2, hp2⟩ := ih1r hinv1r (.leaf i2 bv2 o2) rfl
        rcases hres1 : collisionRecurse2 cb l1 (.leaf i2 bv2 o2) with ⟨s1, tr1⟩
        rw [hres1] at hf1 hp1
        dsimp only at hf1 hp1
        subst hf1
        rcases hres2 : collisionRecurse2 cb r1 (.leaf i2 bv2 o2) with ⟨s2, tr2⟩
        rw [hres2] at hf2 hp2
        dsimp only at hf2 hp2
        subst hf2
        refine ⟨rfl, ?_⟩
        rw [collidePairsRef_node_left]
        exact hp1.append hp2
      · rw [if_pos hov]
        refine ⟨rfl, ?_⟩
        rw [collidePairsRef_nil (.node i1 bv1 l1 r1) (.leaf i2 bv2 o2) hinv1
          rfl hov]
    | node i2 bv2 l2 r2 ih2l ih2r =>
      intro hinv2
      obtain ⟨hc2l, hc2r, hinv2l, hinv2r⟩ := containmentInv_node hinv2
      simp only [collisionRecurse2]
      by_cases hov : bv1.overlap bv2 = true
      · rw [if_neg (not_not_intro hov)]
        by_cases hsz : bv1.size > bv2.size
        · rw [if_pos hsz]
          obtain ⟨hf1, hp1⟩ := ih1l hinv1l (.node i2 bv2 l2 r2) hinv2
          obtain ⟨hf2, hp2⟩ := ih1r hinv1r (.node i2 bv2 l2 r2) hinv2
          rcases hres1 : collisionRecurse2 cb l1 (.node i2 bv2 l2 r2) with
            ⟨s1, tr1⟩
          rw [hres1] at hf1 hp1
          dsimp only at hf1 hp1
          subst hf1
          rcases hres2 : collisionRecurse2 cb r1 (.node i2 bv2 l2 r2) with
            ⟨s2, tr2⟩
          rw [hres2] at hf2 hp2
          dsimp only at hf2 hp2
          subst hf2
          refine ⟨rfl, ?_⟩
          rw [collidePairsRef_node_left]
          exact hp1.append hp2
        · rw [if_neg hsz]
          obtain ⟨hf1, hp1⟩ := ih2l hinv2l
          obtain ⟨hf2, hp2⟩ := ih2r hinv2r
          rcases hres1 : collisionRecurse2 cb (.node i1 bv1 l1 r1) l2 with
            ⟨s1, tr1⟩
          rw [hres1] at hf1 hp1
          dsimp only at hf1 hp1
          subst hf1
          rcases hres2 : collisionRecurse2 cb (.node i1 bv1 l1 r1) r2 with
            ⟨s2, tr2⟩
          rw [hres2] at hf2 hp2
          dsimp only at hf2 hp2
          subst hf2
          exact ⟨rfl, (hp1.append hp2).trans
            (collidePairsRef_node_right _ i2 bv2 l2 r2).symm⟩
      · rw [if_pos hov]
        refine ⟨rfl, ?_⟩
        rw [collidePairsRef_nil (.node i1 bv1 l1 r1) (.node i2 bv2 l2 r2)
          hinv1 hinv2 hov]

/-- `selfCollisionRecurse` never stops under a never-aborting callback and
invokes, up to order, exactly the overlapping leaf pairs grouped by lowest
common ancestor. -/
theorem selfCollisionRecurse_spec (cb : ℕ → ℕ → Bool)
    (hcb : ∀ a b, cb a b = false) :
    ∀ t : ITree, t.containmentInv = true →
      (selfCollisionRecurse cb t).1 = false ∧
      (selfCollisionRecurse cb t).2.Perm (selfPairsRef t) := by
  intro t
  induction t with
  | leaf i bv o =>
    intro _
    exact ⟨rfl, by simp [selfCollisionRecurse, selfPairsRef]⟩
  | node i bv l r ihl ihr =>
    intro hinv
    obtain ⟨_, _, hil, hir⟩ := containmentInv_node hinv
    obtain ⟨hf1, hp1⟩ := ihl hil
    obtain ⟨hf2, hp2⟩ := ihr hir
    obtain ⟨hf3, hp3⟩ := collisionRecurse2_spec cb hcb l hil r hir
    simp only [selfCollisionRecurse]
    rcases h1 : selfCollisionRecurse cb l with ⟨s1, tr1⟩
    rw [h1] at hf1 hp1
    dsimp only at hf1 hp1
    subst hf1
    rcases h2 : selfCollisionRecurse cb r with ⟨s2, tr2⟩
    rw [h2] at hf2 hp2
    dsimp only at hf2 hp2
    subst hf2
    rcases h3 : collisionRecurse2 cb l r with ⟨s3, tr3⟩
    rw [h3] at hf3 hp3
    dsimp only at hf3 hp3
    subst hf3
    exact ⟨rfl, (hp1.append hp2).append hp3⟩

/-- Counting is invariant under permutation (stated for the product `BEq`
instance that elaboration picks for callback-pair traces). -/
theorem count_perm_pair {l1 l2 : List (ℕ × ℕ)} (p : l1.Perm l2) (a : ℕ × ℕ) :
    l1.count a = l2.count a := by
  simp only [List.count_eq_countP]
  exact p.countP_eq _

/-- On a `Nodup` list every member has count one (product `BEq` instance). -/
theorem count_eq_one_of_mem_nodup {l : List (ℕ × ℕ)} {a : ℕ × ℕ}
    (h : a ∈ l) (hd : l.Nodup) : l.count a = 1 := by
  induction l with
  | nil => cases h
  | cons b t ih =>
    rw [List.count_cons]
    rcases List.mem_cons.mp h with rfl | hmem
    · have hnm : a ∉ t := (List.nodup_cons.mp hd).1
      simp [List.count_eq_zero.mpr hnm]
    · have hne : b ≠ a := fun he => (List.nodup_cons.mp hd).1 (he ▸ hmem)
      simp [ih hmem (List.nodup_cons.mp hd).2, beq_iff_eq, hne]

/-- Claim C6: for a manager whose tree satisfies the containment invariant
(and with distinct registered objects and a non-aborting callback), the
self-collision query never aborts, invokes the callback on every unordered
pair of registered objects with overlapping AABBs exactly once (in one of
the two orders), never invokes it on a pair whose AABBs are disjoint or on
a single object twice, and emits zero callbacks when exactly one object is
registered. -/
theorem claimC6 (m : Manager) (t : ITree) (cb : ℕ → ℕ → Bool)
    (hroot : m.dtreeRoot = some t) (hcb : ∀ a b, cb a b = false)
    (hinv : t.containmentInv = true) (hnd : t.leafObjs.Nodup) :
    (managerSelfCollide m cb).1 = false ∧
    (∀ a abv b bbv, (a, abv) ∈ t.leafRecords → (b, bbv) ∈ t.leafRecords →
      a ≠ b → abv.overlap bbv = true →
      (managerSelfCollide m cb).2.count (a, b) +
        (managerSelfCollide m cb).2.count (b, a) = 1) ∧
    (∀ x y, (x, y) ∈ (managerSelfCollide m cb).2 →
      x ≠ y ∧ ∃ xbv ybv, (x, xbv) ∈ t.leafRecords ∧
        (y, ybv) ∈ t.leafRecords ∧ xbv.overlap ybv = true) ∧
    (∀ i bv o, t = .leaf i bv o → (managerSelfCollide m cb).2 = []) := by
  have hspec := selfCollisionRecurse_spec cb hcb t hinv
  have hmgr : managerSelfCollide m cb = selfCollisionRecurse cb t := by
    simp [managerSelfCollide, hroot]
  rw [hmgr]
  refine ⟨hspec.1, ?_, ?_, ?_⟩
  · intro a abv b bbv ha hb hne hov
    rw [count_perm_pair hspec.2, count_perm_pair hspec.2]
    rcases selfPairsRef_complete t ha hb hne hov with hm | hm
    · rw [count_eq_one_of_mem_nodup hm (nodup_selfPairsRef t hnd),
        List.count_eq_zero.mpr (selfPairsRef_asymm t hnd hm)]
    · rw [List.count_eq_zero.mpr (selfPairsRef_asymm t hnd hm),
        count_eq_one_of_mem_nodup hm (nodup_selfPairsRef t hnd)]
  · intro x y hxy
    have hmem := hspec.2.mem_iff.mp hxy
    obtain ⟨hne, p, q, hp, hq, h1, h2, h3⟩ := mem_selfPairsRef t hnd hmem
    subst h1
    subst h2
    exact ⟨hne, p.2, q.2, hp, hq, h3⟩
  · intro i bv o hleaf
    subst hleaf
    rfl

/-- Claim C6, witness: two overlapping unit boxes (at `x = 0` and
`x = 1/2`); self-collide invokes the callback on that pair exactly once. -/
theorem claimC6_witness :
    (managerSelfCollide
        ⟨some (.node 0 ⟨⟨0, 0, 0⟩, ⟨3/2, 1, 1⟩⟩
            (.leaf 1 ⟨⟨0, 0, 0⟩, ⟨1, 1, 1⟩⟩ 1)
            (.leaf 2 ⟨⟨1/2, 0, 0⟩, ⟨3/2, 1, 1⟩⟩ 2)),
          [(1, some 1), (2, some 2)], true, 10, 10⟩
        (fun _ _ => false)).2.count (1, 2) +
      (managerSelfCollide
        ⟨some (.node 0 ⟨⟨0, 0, 0⟩, ⟨3/2, 1, 1⟩⟩
            (.leaf 1 ⟨⟨0, 0, 0⟩, ⟨1, 1, 1⟩⟩ 1)
            (.leaf 2 ⟨⟨1/2, 0, 0⟩, ⟨3/2, 1, 1⟩⟩ 2)),
          [(1, some 1), (2, some 2)], true, 10, 10⟩
        (fun _ _ => false)).2.count (2, 1) = 1 :=
  (claimC6
    ⟨some (.node 0 ⟨⟨0, 0, 0⟩, ⟨3/2, 1, 1⟩⟩
        (.leaf 1 ⟨⟨0, 0, 0⟩, ⟨1, 1, 1⟩⟩ 1)
        (.leaf 2 ⟨⟨1/2, 0, 0⟩, ⟨3/2, 1, 1⟩⟩ 2)),
      [(1, some 1), (2, some 2)], true, 10, 10⟩
    (.node 0 ⟨⟨0, 0, 0⟩, ⟨3/2, 1, 1⟩⟩ (.leaf 1 ⟨⟨0, 0, 0⟩, ⟨1, 1, 1⟩⟩ 1)
      (.leaf 2 ⟨⟨1/2, 0, 0⟩, ⟨3/2, 1, 1⟩⟩ 2))
    (fun _ _ => false) rfl (fun _ _ => rfl)
    (by norm_num [ITree.containmentInv, ITree.bv, AABB.containsBox])
    (by decide)).2.1
    1 ⟨⟨0, 0, 0⟩, ⟨1, 1, 1⟩⟩ 2 ⟨⟨1/2, 0, 0⟩, ⟨3/2, 1, 1⟩⟩
    (by simp [ITree.leafRecords]) (by simp [ITree.leafRecords])
    (by decide) (by norm_num [AABB.overlap])

end FCLSpec
